import Mathlib

/-!
Verification development for the congestion-adaptive quality controller of a
real-time media client (adaptive-bitrate controller, multi-bitrate track
selector, and their bounded FIFO sample-window utility).

The definitions below are a shallow embedding of the TypeScript sources:
numbers are modelled as rationals, JavaScript `Math.round` / `Math.ceil`
become explicit floor/ceiling operations, optional values become `Option`,
and JavaScript truthiness of an optional number (`undefined` and `0` are
falsy) is made explicit.
-/

/-- JavaScript `Math.round` on a rational: round half toward positive
infinity, i.e. the floor of `x + 1/2`. -/
def jsRound (q : ℚ) : ℚ := (⌊q + 1/2⌋ : ℤ)

/-- JavaScript `Math.ceil` on a rational. -/
def jsCeil (q : ℚ) : ℚ := (⌈q⌉ : ℤ)

/-- Truthiness of a JavaScript `number | undefined` value: `undefined` and
`0` are falsy, every other number is truthy. -/
def qTruthy : Option ℚ → Bool
  | none => false
  | some x => x != 0

/- ## Queue / Numbers (the bounded FIFO sample window, utils/Queue.ts and
utils/Numbers.ts)

`Numbers extends Queue<number>` keeps a running `_sum`, `_min`, `_max` and a
memoized `_average`.  The queue itself is the list `q` (front first) plus an
optional `capacity`; `Queue.push` appends and, when the length exceeds the
capacity, pops the front (which dynamically dispatches to `Numbers.pop`). -/

/-- Minimum over a list together with 0 (the value `Math.min(0, ...l)`). -/
def listMin0 (l : List ℚ) : ℚ := l.foldr Min.min 0

/-- Maximum over a list together with 0 (the value `Math.max(0, ...l)`). -/
def listMax0 (l : List ℚ) : ℚ := l.foldr Max.max 0

structure Numbers where
  capacity : Option ℕ
  q : List ℚ
  sum : ℚ
  minv : ℚ
  maxv : ℚ
  avgMemo : Option ℚ
  deriving Repr, DecidableEq

/-- Model of `new Numbers(capacity)`: empty queue, `_sum = _min = _max = 0`. -/
def Numbers.mk0 (capacity : Option ℕ) : Numbers :=
  ⟨capacity, [], 0, 0, 0, none⟩

/-- Model of `Numbers.pop`: shift the front; if it equals the tracked maximum,
recompute the maximum as `Math.max(0, ...rest)`; otherwise if it equals the
tracked minimum, recompute the minimum as `Math.min(0, ...rest)`;
invalidate the memoized average and subtract `front || 0` from the sum
(on an empty queue the comparisons with the undefined front are false and
the sum is unchanged).  Returns the popped front and the new state. -/
def Numbers.popRun (n : Numbers) : Option ℚ × Numbers :=
  match n.q with
  | [] => (none, { n with q := [], avgMemo := none })
  | f :: rest =>
    let mm : ℚ × ℚ :=
      if f = n.maxv then (n.minv, listMax0 rest)
      else if f = n.minv then (listMin0 rest, n.maxv)
      else (n.minv, n.maxv)
    (some f,
      { n with
        q := rest
        sum := n.sum - f
        minv := mm.1
        maxv := mm.2
        avgMemo := none })

/-- Model of `Numbers.push`: update the tracked maximum (`else if` the minimum),
invalidate the memoized average, add to the running sum, then perform the
`Queue.push` which appends and pops the front when the capacity is
exceeded (the pop dispatches back to `Numbers.pop`). -/
def Numbers.push (n : Numbers) (v : ℚ) : Numbers :=
  let n1 :=
    if v > n.maxv then { n with maxv := v }
    else if v < n.minv then { n with minv := v }
    else n
  let n2 := { n1 with avgMemo := none, sum := n1.sum + v, q := n1.q ++ [v] }
  match n2.capacity with
  | some c => if n2.q.length > c then (n2.popRun).2 else n2
  | none => n2

/-- Getter `Numbers.minimum` (0 when the collection is empty). -/
def Numbers.minimum (n : Numbers) : ℚ := n.minv

/-- Getter `Numbers.maximum` (0 when the collection is empty). -/
def Numbers.maximum (n : Numbers) : ℚ := n.maxv

/-- Getter `Numbers.average`: the memoized value if present, else
`size ? sum / size : 0`. -/
def Numbers.average (n : Numbers) : ℚ :=
  match n.avgMemo with
  | some a => a
  | none => if n.q.length = 0 then 0 else n.sum / n.q.length

/-- States of a `Numbers` reachable from a fresh instance by any sequence of
pushes and pops. -/
inductive Numbers.Reaches : Numbers → Prop
  | init (c : Option ℕ) : Numbers.Reaches (Numbers.mk0 c)
  | push (n : Numbers) (v : ℚ) : Numbers.Reaches n → Numbers.Reaches (n.push v)
  | pop (n : Numbers) : Numbers.Reaches n → Numbers.Reaches n.popRun.2

/-- The minimum recomputed over exactly the held samples (per the claim);
0 for an empty collection. -/
def recompMin : List ℚ → ℚ
  | [] => 0
  | a :: t => t.foldr Min.min a

/-- The maximum recomputed over exactly the held samples (per the claim);
0 for an empty collection. -/
def recompMax : List ℚ → ℚ
  | [] => 0
  | a :: t => t.foldr Max.max a

/-- State invariant maintained by the `Numbers` bookkeeping: the running sum
is the sum of the held samples, the tracked min/max are the min/max of the
held samples together with 0, and the memoized average is invalidated. -/
def Numbers.Inv (n : Numbers) : Prop :=
  n.sum = n.q.sum ∧ n.minv = listMin0 n.q ∧ n.maxv = listMax0 n.q ∧ n.avgMemo = none

/- ## ABRAbstract (abr/ABRAbstract.ts)

Construction parameters; an absent field takes the documented default in the
constructor (`Object.assign` over the defaults). -/

structure ABRParams where
  startup : Option ℚ := none
  minimum : Option ℚ := none
  maximum : Option ℚ := none
  recoverySteps : Option ℚ := none
  appreciationDuration : Option ℚ := none
  deriving Repr, DecidableEq

/-- The state held by `ABRAbstract`: the last seen bitrate and constraint,
the three bounds and the two tuning parameters. -/
structure ABRCore where
  bitrate : Option ℚ
  bitrateConstraint : Option ℚ
  startup : ℚ
  minimum : ℚ
  maximum : ℚ
  recoverySteps : ℚ
  appreciationDuration : ℚ
  deriving Repr, DecidableEq

/-- The `ABRAbstract` constructor: fields are assigned raw from the
defaulted parameters (no cross-clamping), except `recoverySteps` which goes
through its setter (`Math.max(1, value)`). -/
def ABRCore.init (p : ABRParams) : ABRCore :=
  { bitrate := none
    bitrateConstraint := none
    startup := p.startup.getD 2000000
    minimum := p.minimum.getD 200000
    maximum := p.maximum.getD 3000000
    recoverySteps := Max.max 1 (p.recoverySteps.getD 2)
    appreciationDuration := p.appreciationDuration.getD 4000 }

/-- Setter `startup`: `Math.max(minimum, Math.min(Math.round(value), maximum))`. -/
def ABRCore.setStartup (c : ABRCore) (v : ℚ) : ABRCore :=
  { c with startup := Max.max c.minimum (Min.min (jsRound v) c.maximum) }

/-- Setter `minimum`: round; if the new minimum exceeds the maximum, raise
maximum and startup to it; else raise startup to it if startup fell below. -/
def ABRCore.setMinimum (c : ABRCore) (v : ℚ) : ABRCore :=
  let v := jsRound v
  if v > c.maximum then { c with minimum := v, maximum := v, startup := v }
  else if c.startup < v then { c with minimum := v, startup := v }
  else { c with minimum := v }

/-- Setter `maximum`: round; if the new maximum falls below the minimum,
lower minimum and startup to it; else lower startup to it if startup rose
above. -/
def ABRCore.setMaximum (c : ABRCore) (v : ℚ) : ABRCore :=
  let v := jsRound v
  if v < c.minimum then { c with maximum := v, minimum := v, startup := v }
  else if c.startup > v then { c with maximum := v, startup := v }
  else { c with maximum := v }

/-- Setter `recoverySteps`: `Math.max(1, value)`. -/
def ABRCore.setRecoverySteps (c : ABRCore) (v : ℚ) : ABRCore :=
  { c with recoverySteps := Max.max 1 v }

/-- The documented ordering invariant of the three bounds:
minimum ≤ startup ≤ maximum. -/
def ABRCore.BoundsInv (c : ABRCore) : Prop :=
  c.minimum ≤ c.startup ∧ c.startup ≤ c.maximum

/-- Modelled from the spec: the `recoveryFactor` accessor that
`ABRLinear` reads from its base class (`this.recoveryFactor`).  The base
class version shipped under `src/` only exposes this configuration value
under the name `recoverySteps`; the matching base-class revision defining
the `recoveryFactor` getter is not part of the sources, and the spec lists
`recoverySteps`/`recoveryFactor` as one configuration parameter (default
2), so the getter is modelled as returning `recoverySteps`. -/
def ABRCore.recoveryFactor (c : ABRCore) : ℚ := c.recoverySteps

/-- Model of `mediaReport.stats`: only the loss percentage matters to the ABR
strategies. -/
structure MediaStats where
  loss_perc : Option ℚ := none
  deriving Repr, DecidableEq

/-- The media report received from the server (`MediaReport`). -/
structure MediaReport where
  stats : Option MediaStats := none
  deriving Repr, DecidableEq

/-- The test `bitrateConstraint && bitrate > bitrateConstraint` (with
JavaScript truthiness on the constraint). -/
def constraintHit (b : ℚ) (constraint : Option ℚ) : Bool :=
  match constraint with
  | some c => c != 0 && b > c
  | none => false

/- ## ABRLinear (abr/ABRLinear.ts) -/

/-- Model of `STABLE_TIMEOUT_MS = 11000` (hardcoded; commented in the source as
larger than the 10 s maximum window between two key frames). -/
def STABLE_TIMEOUT_MS : ℚ := 11000

/-- The `Vars` bundle of `ABRLinear`: stability timestamp and anchor, the
last observed loss (`none` models the `Number.POSITIVE_INFINITY` initial
value) and the recovery factor. -/
structure LinearVars where
  stableTime : ℚ
  stableBitrate : ℚ
  lastLoss : Option ℚ
  recoveryFactor : ℚ
  deriving Repr, DecidableEq

/-- Model of `new Vars(recoveryFactor - 1)` as built by the `ABRLinear` constructor
and by `reset()`. -/
def LinearVars.init (c : ABRCore) : LinearVars :=
  ⟨0, 0, none, c.recoveryFactor - 1⟩

/-- Model of `loss >= lastLoss` where `lastLoss` may be `+∞` (`none`). -/
def lossGE (l : ℚ) : Option ℚ → Bool
  | none => false
  | some x => l ≥ x

/-- Model of `ABRLinear._computeBitrate`: clamp to the constraint when it is hit,
else decrease on non-improving loss, else run the stability search (the
increase step uses the hardcoded `STABLE_TIMEOUT_MS`, not
`appreciationDuration`).  `now` is the value of `Util.time()` during the
call.  Returns the wanted bitrate and the updated `Vars`. -/
def linearComputeBitrate (core : ABRCore) (v : LinearVars) (now b : ℚ)
    (constraint : Option ℚ) (report : Option MediaReport) : ℚ × LinearVars :=
  let lossOpt : Option ℚ := (report.bind MediaReport.stats).bind MediaStats.loss_perc
  if constraintHit b constraint then
    (constraint.getD 0, { v with stableTime := 0 })
  else if qTruthy lossOpt then
    let loss := lossOpt.getD 0
    let b := if lossGE loss v.lastLoss then jsRound ((1 - loss / 100) * b) else b
    (b, { v with stableTime := 0, lastLoss := some loss })
  else
    let v := { v with lastLoss := none }
    if now ≥ v.stableTime then
      if v.stableTime ≠ 0 then
        (b + jsCeil ((core.maximum - v.stableBitrate) / v.recoveryFactor),
          { v with
            recoveryFactor := Max.max (v.recoveryFactor - 1) core.recoverySteps
            stableTime := now + STABLE_TIMEOUT_MS })
      else
        (b,
          { v with
            stableBitrate := b
            recoveryFactor := v.recoveryFactor + 1
            stableTime := now + STABLE_TIMEOUT_MS })
    else (b, v)

/-- Full state of an `ABRLinear` instance. -/
structure ABRLinearState where
  core : ABRCore
  vars : LinearVars
  deriving Repr, DecidableEq

/-- The `ABRLinear` constructor. -/
def ABRLinearState.init (p : ABRParams) : ABRLinearState :=
  let c := ABRCore.init p
  ⟨c, LinearVars.init c⟩

/-- Model of `ABRLinear.reset`: clear the remembered bitrate/constraint and rebuild
the `Vars`. -/
def ABRLinearState.reset (s : ABRLinearState) : ABRLinearState :=
  ⟨{ s.core with bitrate := none, bitrateConstraint := none }, LinearVars.init s.core⟩

/-- Model of `ABRAbstract.compute` with the linear strategy: when the current
bitrate is undefined return `startup` directly, otherwise clamp the
strategy result with `Math.max(minimum, Math.min(·, maximum))`; in both
cases remember the bitrate argument and the constraint. -/
def ABRLinearState.compute (s : ABRLinearState) (now : ℚ) (bitrate : Option ℚ)
    (constraint : Option ℚ) (report : Option MediaReport) : ℚ × ABRLinearState :=
  match bitrate with
  | none =>
    (s.core.startup, ⟨{ s.core with bitrate := none, bitrateConstraint := constraint }, s.vars⟩)
  | some b =>
    let r := linearComputeBitrate s.core s.vars now b constraint report
    (Max.max s.core.minimum (Min.min r.1 s.core.maximum),
      ⟨{ s.core with bitrate := some b, bitrateConstraint := constraint }, r.2⟩)

/- ## ABRGrade (abr/ABRGrade.ts)

Constants `BITRATE_RECOVERY_MIN_TIMEOUT = 2500` and
`BITRATE_RECOVERY_MAX_TIMEOUT = 60000`. -/

def BITRATE_RECOVERY_MIN_TIMEOUT : ℚ := 2500

def BITRATE_RECOVERY_MAX_TIMEOUT : ℚ := 60000

/-- The `Vars` bundle of `ABRGrade`: the loss window (capacity 5), the
stable-bitrate window (capacity 15), the next stable-metrics update time,
the recovery back-off timeout (initially 10000 ms), the next scheduled
recovery time and the two optional timestamps. -/
structure GradeVars where
  lossPercents : Numbers
  stableBitrates : Numbers
  stableBitrateUpdateTime : ℚ
  bitrateRecoveryTimeout : ℚ
  bitrateRecoveryNextTime : ℚ
  bitrateRecoveryTime : Option ℚ
  bitrateConstraintTime : Option ℚ
  deriving Repr, DecidableEq

/-- Model of `new Vars()` as built by the `ABRGrade` constructor and by `reset()`. -/
def GradeVars.init : GradeVars :=
  ⟨Numbers.mk0 (some 5), Numbers.mk0 (some 15), 0, 10000, 0, none, none⟩

/-- Model of `ABRGrade._increaseRecoveryTimeout`: double, capped at 60000. -/
def GradeVars.increaseRecoveryTimeout (v : GradeVars) : GradeVars :=
  { v with
    bitrateRecoveryTimeout :=
      Min.min BITRATE_RECOVERY_MAX_TIMEOUT (2 * v.bitrateRecoveryTimeout) }

/-- Model of `ABRGrade._decreaseRecoveryTimeout`: shrink to 75 % (rounded), floored
at 2500. -/
def GradeVars.decreaseRecoveryTimeout (v : GradeVars) : GradeVars :=
  { v with
    bitrateRecoveryTimeout :=
      Max.max BITRATE_RECOVERY_MIN_TIMEOUT (jsRound ((3/4) * v.bitrateRecoveryTimeout)) }

/-- Model of `ABRGrade._increaseTargetBitrate`: `Math.round(constraint * factor)`
capped at the maximum. -/
def gradeIncreaseTargetBitrate (core : ABRCore) (c factor : ℚ) : ℚ :=
  let b := jsRound (c * factor)
  if b > core.maximum then core.maximum else b

/-- Model of `ABRGrade._decreaseTargetBitrate`: `Math.round(constraint * 0.99)`
floored at the minimum. -/
def gradeDecreaseTargetBitrate (core : ABRCore) (c : ℚ) : ℚ :=
  let b := jsRound (c * (99/100))
  if b < core.minimum then core.minimum else b

/-- Model of `ABRGrade._bitrateRecoveryHandler`: on average loss below 0.2 increase
the bitrate by 5 % of the constraint (or by 0.5 % if a constraint was
already observed and the proposal exceeds the stable-bitrate average) and
shrink the back-off; on average loss below 5.0 grow the back-off and
decrease by 1 %; otherwise return `undefined`. -/
def gradeRecoveryHandler (core : ABRCore) (v : GradeVars) (c : ℚ) :
    Option ℚ × GradeVars :=
  let lossAvg := v.lossPercents.average
  if lossAvg < (1/5 : ℚ) then
    let b := gradeIncreaseTargetBitrate core c (105/100)
    let b :=
      if qTruthy v.bitrateConstraintTime ∧ b > v.stableBitrates.average then
        gradeIncreaseTargetBitrate core c (1005/1000)
      else b
    (some b, v.decreaseRecoveryTimeout)
  else if lossAvg < (5 : ℚ) then
    (some (gradeDecreaseTargetBitrate core c), v.increaseRecoveryTimeout)
  else (none, v)

/-- The stable-bitrate metrics update of `ABRGrade._computeBitrate`: every
4 seconds, while the average loss is below 0.2, append
`Math.min(bitrateConstraint ?? this.constraint ?? 0, bitrate, maximum)` to
the stable-bitrate window.  (The subsequent stability check
`stableBitrateMin >= 0.8*avg && stableBitrateMax <= 1.2*avg` only triggers
the advisory resolution change and is value-invisible here.) -/
def gradeStableMetrics (core : ABRCore) (v : GradeVars) (now b : ℚ)
    (constraint : Option ℚ) : GradeVars :=
  if now ≥ v.stableBitrateUpdateTime ∧ v.lossPercents.average < (1/5 : ℚ) then
    { v with
      stableBitrateUpdateTime := now + 4000
      stableBitrates :=
        v.stableBitrates.push
          (Min.min (Min.min ((constraint.orElse fun _ => core.bitrateConstraint).getD 0) b)
            core.maximum) }
  else v

/-- The `if (bitrateConstraint != null && this.constraint != null &&
bitrateConstraint < this.constraint)` block of `ABRGrade._computeBitrate`:
on the very first constraint (with no recovery running) halve the bitrate;
on a constraint hit during a recovery, lengthen the back-off; remember the
constraint time. -/
def gradeConstraintDecrease (core : ABRCore) (v : GradeVars) (now b : ℚ)
    (constraint : Option ℚ) : ℚ × GradeVars :=
  let decreased : Bool :=
    match constraint, core.bitrateConstraint with
    | some c, some prev => c < prev
    | _, _ => false
  if decreased then
    let b1 :=
      if ¬qTruthy v.bitrateConstraintTime ∧ ¬qTruthy v.bitrateRecoveryTime then
        jsRound (b / 2)
      else b
    let v1 :=
      if qTruthy v.bitrateConstraintTime ∧ qTruthy v.bitrateRecoveryTime ∧
          (now - v.bitrateRecoveryTime.getD 0 < v.bitrateRecoveryTimeout ∨
            v.bitrateRecoveryTimeout = BITRATE_RECOVERY_MIN_TIMEOUT) then
        { v.increaseRecoveryTimeout with bitrateRecoveryTime := none }
      else v
    (b1, { v1 with bitrateConstraintTime := some now })
  else (b, v)

/-- The final `if (bitrateConstraint)` block of
`ABRGrade._computeBitrate`: clamp up to the minimum when the constraint
falls below it, and while the maximum exceeds the constraint and the
recovery time has come, either run the recovery handler (stopping the
timer by assigning `now` — to the TIMEOUT field — and clearing the next
time on success) or (re)program the recovery timer. -/
def gradeConstraintBlock (core : ABRCore) (v : GradeVars) (now b : ℚ)
    (constraint : Option ℚ) : ℚ × GradeVars :=
  if qTruthy constraint then
    let c := constraint.getD 0
    let b1 := if c < core.minimum then core.minimum else b
    if core.maximum > c ∧ now ≥ v.bitrateRecoveryNextTime then
      -- `vars.bitrateRecoveryNextTime && this._bitrateRecoveryHandler(...)`
      let hv : Option ℚ × GradeVars :=
        if v.bitrateRecoveryNextTime ≠ 0 then gradeRecoveryHandler core v c else (none, v)
      if qTruthy hv.1 then
        (hv.1.getD 0,
          { hv.2 with bitrateRecoveryTimeout := now, bitrateRecoveryNextTime := 0 })
      else
        (b1, { hv.2 with bitrateRecoveryNextTime := now + hv.2.bitrateRecoveryTimeout })
    else (b1, v)
  else (b, v)

/-- The remainder of `ABRGrade._computeBitrate` after the loss sample has
been pushed (this part of the method no longer reads the media report):
the three blocks above in sequence. -/
def gradeComputeBitrateAux (core : ABRCore) (v : GradeVars) (now b : ℚ)
    (constraint : Option ℚ) : ℚ × GradeVars :=
  let v1 := gradeStableMetrics core v now b constraint
  let bv := gradeConstraintDecrease core v1 now b constraint
  gradeConstraintBlock core bv.2 now bv.1 constraint

/-- Model of `ABRGrade._computeBitrate`.  `now` is the value of `Util.time()`
during the call; logging (`this._logger.log`, modelled from the spec as a
pure diagnostic sink; the revision of the base class that declares the
`_logger` member is not among the sources) and the advisory
`_updateVideoConstraints` call are value-invisible and elided.  Returns
the wanted bitrate and the updated `Vars`. -/
def gradeComputeBitrate (core : ABRCore) (v : GradeVars) (now b : ℚ)
    (constraint : Option ℚ) (report : Option MediaReport) : ℚ × GradeVars :=
  let lossOpt : Option ℚ := (report.bind MediaReport.stats).bind MediaStats.loss_perc
  -- `if (stats && stats.loss_perc != null) lossPercents.push(...)`
  let v :=
    match lossOpt with
    | some l => { v with lossPercents := v.lossPercents.push l }
    | none => v
  gradeComputeBitrateAux core v now b constraint

/-- Full state of an `ABRGrade` instance. -/
structure ABRGradeState where
  core : ABRCore
  vars : GradeVars
  deriving Repr, DecidableEq

/-- The `ABRGrade` constructor. -/
def ABRGradeState.init (p : ABRParams) : ABRGradeState :=
  ⟨ABRCore.init p, GradeVars.init⟩

/-- Model of `ABRGrade.reset`. -/
def ABRGradeState.reset (s : ABRGradeState) : ABRGradeState :=
  ⟨{ s.core with bitrate := none, bitrateConstraint := none }, GradeVars.init⟩

/-- Model of `ABRAbstract.compute` with the grade strategy. -/
def ABRGradeState.compute (s : ABRGradeState) (now : ℚ) (bitrate : Option ℚ)
    (constraint : Option ℚ) (report : Option MediaReport) : ℚ × ABRGradeState :=
  match bitrate with
  | none =>
    (s.core.startup, ⟨{ s.core with bitrate := none, bitrateConstraint := constraint }, s.vars⟩)
  | some b =>
    let r := gradeComputeBitrate s.core s.vars now b constraint report
    (Max.max s.core.minimum (Min.min r.1 s.core.maximum),
      ⟨{ s.core with bitrate := some b, bitrateConstraint := constraint }, r.2⟩)

/- ## Metadata (metadata/Metadata.ts)

The doubly linked quality ladder is modelled as an arena: each `MTrack`
stores the `idx` of its `up`/`down` neighbour instead of an object
reference, and the `tracks` map is an association list from `idx` to
`MTrack` (insertion-ordered, as a JavaScript `Map`). -/

/-- Model of `MType`. -/
inductive MType where
  | audio
  | video
  | data
  deriving Repr, DecidableEq

/-- A media track (the fields the controller algorithms read). -/
structure MTrack where
  idx : ℕ
  type : MType
  codec : String
  maxbps : ℚ
  up : Option ℕ
  down : Option ℕ
  deriving Repr, DecidableEq

/-- Model of `Metadata`: the tracks map plus the per-kind sorted arrays. -/
structure Metadata where
  tracks : List (ℕ × MTrack)
  audios : List MTrack
  videos : List MTrack
  datas : List MTrack
  deriving Repr, DecidableEq

/-- Model of `metadata.tracks.get(idx)`. -/
def Metadata.get (m : Metadata) (i : ℕ) : Option MTrack :=
  (m.tracks.find? fun p => p.1 = i).map Prod.snd

/-- Model of `metadata.tracks.has(idx)`. -/
def Metadata.hasIdx (m : Metadata) (i : ℕ) : Bool :=
  (m.tracks.find? fun p => p.1 = i).isSome

/-- Model of `toLowerCase` on a codec name (ASCII, per `Char.toLower`). -/
def jsToLower (s : String) : String := ⟨s.data.map Char.toLower⟩

/-- Whether a media survives the codec filter:
`codecs.has(media.codec.toLowerCase())`. -/
def codecKept (codecs : List String) (t : MTrack) : Bool :=
  codecs.contains (jsToLower t.codec)

/-- The `filter` helper of Metadata.ts: the media array keeps only the
tracks with a supported codec, and every removed media is deleted from the
tracks map by its `idx`. -/
def removedIdxs (codecs : List String) (medias : List MTrack) : List ℕ :=
  ((medias.filter fun t => ¬codecKept codecs t).map MTrack.idx)

/-- One step of the `up`/`down` chain through the original arena: the
neighbour reference stored by the track at index `i`. -/
def chainNext (m : Metadata) (sel : MTrack → Option ℕ) (i : ℕ) : Option ℕ :=
  (m.get i).bind sel

/-- The `while (track.up && !metadata.tracks.has(track.up.idx)) track.up =
track.up.up` fix-up loop: follow the chain until it reaches a reference
that is absent (`none`) or present in the filtered map.  The loop reads
the neighbour fields of excluded tracks only (it stops at the first kept
track), so the chain can be resolved through the original arena.  `fuel`
bounds the number of iterations to keep the function total; the source
loop terminates exactly when the chain is acyclic. -/
def skipChain (present : ℕ → Bool) (next : ℕ → Option ℕ) :
    ℕ → Option ℕ → Option ℕ
  | _, none => none
  | 0, some i => some i
  | fuel + 1, some i => if present i then some i else skipChain present next fuel (next i)

/-- Model of `Metadata.subset(codecs)`: filter the audio and video arrays (and the
tracks map) by codec, then rewrite every kept track's `up`/`down`
references to skip over the removed entries.  Without a codec set the
metadata is returned unchanged (a shallow copy). -/
def Metadata.subset (m : Metadata) (codecs : Option (List String)) : Metadata :=
  match codecs with
  | none => m
  | some cs =>
    let removed := removedIdxs cs m.audios ++ removedIdxs cs m.videos
    let tracks1 := m.tracks.filter fun p => ¬removed.contains p.1
    let present : ℕ → Bool := fun i => (tracks1.find? fun p => p.1 = i).isSome
    let fuel := m.tracks.length + 1
    let tracks2 := tracks1.map fun p =>
      (p.1,
        { p.2 with
          up := skipChain present (chainNext m MTrack.up) fuel p.2.up
          down := skipChain present (chainNext m MTrack.down) fuel p.2.down })
    { m with
      tracks := tracks2
      audios := m.audios.filter fun t => codecKept cs t
      videos := m.videos.filter fun t => codecKept cs t }

/-- A three-rendition video ladder (the fixture of the MBR claims):
A (idx 1, 1 Mbps) ↔ B (idx 2, 2 Mbps) ↔ C (idx 3, 3 Mbps), stored in the
tracks map sorted by descending maximum bitrate with consistent up/down
links. -/
def trackA : MTrack := ⟨1, MType.video, "h264", 1000000, some 2, none⟩

def trackB : MTrack := ⟨2, MType.video, "h264", 2000000, some 3, some 1⟩

def trackC : MTrack := ⟨3, MType.video, "h264", 3000000, none, some 2⟩

def demoLadder : Metadata :=
  ⟨[(3, trackC), (2, trackB), (1, trackA)], [], [trackC, trackB, trackA], []⟩

/-- A ladder with mixed codecs (fixture for the subset claim): the middle
rendition B uses vp9 while A and C use h264, so filtering on h264 removes
B and the fix-up must reroute A.up and C.down across it. -/
def mixedA : MTrack := ⟨1, MType.video, "h264", 1000000, some 2, none⟩

def mixedB : MTrack := ⟨2, MType.video, "vp9", 2000000, some 3, some 1⟩

def mixedC : MTrack := ⟨3, MType.video, "h264", 3000000, none, some 2⟩

def mixedLadder : Metadata :=
  ⟨[(3, mixedC), (2, mixedB), (1, mixedA)], [], [mixedC, mixedB, mixedA], []⟩

/- ## MBRAbstract (abr/MBRAbstract.ts) and MBRLinear (abr/MBRLinear.ts) -/

def LEARNING_UP_STEP : ℚ := 1400

def MAXIMUM_UP_DELAY : ℚ := 28000

/-- Model of `MBRParams`. -/
structure MBRParams where
  learningUpStep : Option ℚ := none
  maximumUpDelay : Option ℚ := none
  deriving Repr, DecidableEq

/-- The inbound RTP statistics fields read by the selector. -/
structure RTCStats where
  packetsLost : Option ℚ := none
  nackCount : Option ℚ := none
  keyFramesDecoded : Option ℚ := none
  deriving Repr, DecidableEq

/-- The `{ audio?, video? }` track-selection object mutated by `compute`. -/
structure TracksSel where
  audio : Option ℕ
  video : Option ℕ
  deriving Repr, DecidableEq

/-- The `{ audio?, video? }` statistics argument of `compute`. -/
structure MBRStats where
  audio : Option RTCStats := none
  video : Option RTCStats := none
  deriving Repr, DecidableEq

/-- Full state of an `MBRLinear` instance: the `MBRAbstract` fields plus
the `_lost` / `_nackCount` / `_keyFramesDecoded` gradients. -/
structure MBRState where
  mTrack : Option MTrack
  learningUpStep : ℚ
  maximumUpDelay : ℚ
  upDelay : ℚ
  testTime : ℚ
  appreciationTime : Option ℚ
  lost : ℚ
  nackCount : ℚ
  keyFramesDecoded : ℚ
  deriving Repr, DecidableEq

/-- The `MBRLinear` constructor (via the `MBRAbstract` constructor). -/
def MBRState.init (p : MBRParams) : MBRState :=
  { mTrack := none
    learningUpStep := p.learningUpStep.getD LEARNING_UP_STEP
    maximumUpDelay := p.maximumUpDelay.getD MAXIMUM_UP_DELAY
    upDelay := 0
    testTime := 0
    appreciationTime := none
    lost := 0
    nackCount := 0
    keyFramesDecoded := 0 }

/-- Model of `MBRAbstract.reset`: clear the back-off delay and the reference track. -/
def MBRState.reset (s : MBRState) : MBRState :=
  { s with upDelay := 0, mTrack := none }

/-- Model of `MBRLinear._downBitrate`: congestion is declared when the packet-loss
counter strictly increased and, when a non-zero NACK count is available,
the NACK count also increased; both gradients are then re-anchored. -/
def mbrDownBitrate (elapsed : ℚ) (stats : RTCStats) (st : MBRState) :
    Bool × MBRState :=
  match stats.packetsLost with
  | none => (false, st)   -- warning logged; congestion not computable
  | some lost =>
    let congested :=
      elapsed > 0 && lost > st.lost &&
        (match stats.nackCount with
          | some n => if n = 0 then true else n > st.nackCount
          | none => true)
    (congested, { st with lost := lost, nackCount := stats.nackCount.getD 0 })

/-- Model of `MBRLinear._upBitrate`: audio may always recover; video recovers after
more than 10 s (the maximum GOP window), and otherwise waits for a
two-phase confirmation through the key-frames-decoded counter. -/
def mbrUpBitrate (elapsed : ℚ) (trackRef : MTrack) (stats : RTCStats)
    (st : MBRState) : Bool × MBRState :=
  if trackRef.type = MType.audio then (true, st)
  else if elapsed > 10000 then (true, st)
  else
    match stats.keyFramesDecoded with
    | none => (false, st)
    | some k =>
      if elapsed = 0 then (false, { st with keyFramesDecoded := k })
      else if k > st.keyFramesDecoded then
        if st.keyFramesDecoded = 0 then (true, st)
        else (false, { st with keyFramesDecoded := 0 })
      else (false, st)

/-- Model of `MBRAbstract.updateTrack`: resolve the given selection in the metadata
and return its `up`/`down` neighbour reference (the caller only uses the
neighbour's `idx`, so the arena model returns the reference itself). -/
def mbrUpdateTrack (track : Option ℕ) (m : Metadata) (down : Bool) : Option ℕ :=
  match track with
  | none => none
  | some i =>
    match m.get i with
    | none => none   -- error logged
    | some t => if down then t.down else t.up

/-- The tail of `MBRAbstract.compute` once a switch direction is decided:
try the audio neighbour first, then the video neighbour; on a successful
downward switch grow the back-off delay by the learning step, capped. -/
def mbrSwitch (m : Metadata) (sel : TracksSel) (down : Bool) (st : MBRState) :
    Bool × TracksSel × MBRState :=
  let finish : TracksSel → Bool × TracksSel × MBRState := fun sel =>
    let st :=
      if down then
        { st with upDelay := Min.min (st.upDelay + st.learningUpStep) st.maximumUpDelay }
      else st
    (true, sel, st)
  match mbrUpdateTrack sel.audio m down with
  | some j => finish { sel with audio := some j }
  | none =>
    match mbrUpdateTrack sel.video m down with
    | none => (false, sel, st)   -- MAX UP or DOWN: no change
    | some j => finish { sel with video := some j }

/-- The body of `MBRAbstract.compute` once the reference track and its
statistics have been resolved: evaluate the congestion predicate, then
either switch down immediately, or run the appreciation/up-delay gate and
possibly switch up. -/
def mbrComputeBody (m : Metadata) (sel : TracksSel) (now : ℚ) (st : MBRState)
    (mt : MTrack) (ts : RTCStats) : Bool × TracksSel × MBRState :=
  let ds := mbrDownBitrate (now - st.testTime) ts st
  let down := ds.1
  let st := ds.2
  if down then
    mbrSwitch m sel down { st with appreciationTime := none }
  else
    let st :=
      if ¬qTruthy st.appreciationTime then { st with appreciationTime := some now }
      else st
    let elapsed := now - st.appreciationTime.getD 0
    let us := mbrUpBitrate elapsed mt ts st
    let st := us.2
    if ¬us.1 ∨ elapsed < st.upDelay then (false, sel, st)
    else mbrSwitch m sel down st

/-- Model of `MBRAbstract.compute` with the `MBRLinear` predicates.  `now` is the
value of `Util.time()` during the call.  Returns whether a track changed,
the (possibly mutated) selection and the new state. -/
def mbrCompute (m : Metadata) (sel : TracksSel) (stats : MBRStats) (now : ℚ)
    (st : MBRState) : Bool × TracksSel × MBRState :=
  match sel.video.orElse fun _ => sel.audio with
  | none => (false, sel, { st with mTrack := none })
  | some track =>
    let changed : Bool :=
      match st.mTrack with
      | none => true
      | some t => t.idx ≠ track
    let st :=
      if changed then
        { st with appreciationTime := none, testTime := now, mTrack := m.get track }
      else st
    match st.mTrack with
    | none => (false, sel, st)   -- track absent from metadata: error logged
    | some mt =>
      match (if sel.video = some track then stats.video else stats.audio) with
      | none => (false, sel, st)   -- no statistics: error logged
      | some ts => mbrComputeBody m sel now st mt ts

/- ## Exception-instrumented embeddings (error-handling contract)

In JavaScript the only operation in these methods that can throw across
the controller boundary is a property access on `undefined`.  The
functions below re-run each `compute` in an `Except` monad in which every
such access that the source performs after a guard is an explicit
dereference that throws when the value is absent; proving that they always
return `.ok` of the pure result shows that the guards in the source
dominate every dereference. -/

/-- Dereference an optional number (throws a `TypeError` on `undefined`). -/
def getQE (o : Option ℚ) : Except String ℚ :=
  match o with
  | none => .error "TypeError: value is undefined"
  | some x => .ok x

/-- Dereference an optional media-stats object. -/
def getStatsE (o : Option MediaStats) : Except String MediaStats :=
  match o with
  | none => .error "TypeError: cannot read properties of undefined"
  | some s => .ok s

/-- Dereference an optional RTP-statistics object. -/
def getRTCStatsE (o : Option RTCStats) : Except String RTCStats :=
  match o with
  | none => .error "TypeError: cannot read properties of undefined"
  | some s => .ok s

/-- Dereference an optional track object. -/
def getTrackE (o : Option MTrack) : Except String MTrack :=
  match o with
  | none => .error "TypeError: cannot read properties of undefined"
  | some t => .ok t

/-- Model of `ABRLinear._computeBitrate` with explicit dereferences: the assignment
`bitrate = bitrateConstraint` dereferences the constraint (guarded by its
truthiness in the branch condition), and the loss branch re-reads
`stats.loss_perc` through `stats` (guarded by `stats && stats.loss_perc`). -/
def linearComputeBitrateE (core : ABRCore) (v : LinearVars) (now b : ℚ)
    (constraint : Option ℚ) (report : Option MediaReport) :
    Except String (ℚ × LinearVars) := do
  let stats : Option MediaStats := report.bind MediaReport.stats
  if constraintHit b constraint then
    let c ← getQE constraint
    pure (c, { v with stableTime := 0 })
  else if qTruthy (stats.bind MediaStats.loss_perc) then
    let s ← getStatsE stats
    let loss := s.loss_perc.getD 0
    let b := if lossGE loss v.lastLoss then jsRound ((1 - loss / 100) * b) else b
    pure (b, { v with stableTime := 0, lastLoss := some loss })
  else
    let v := { v with lastLoss := none }
    if now ≥ v.stableTime then
      if v.stableTime ≠ 0 then
        pure (b + jsCeil ((core.maximum - v.stableBitrate) / v.recoveryFactor),
          { v with
            recoveryFactor := Max.max (v.recoveryFactor - 1) core.recoverySteps
            stableTime := now + STABLE_TIMEOUT_MS })
      else
        pure (b,
          { v with
            stableBitrate := b
            recoveryFactor := v.recoveryFactor + 1
            stableTime := now + STABLE_TIMEOUT_MS })
    else pure (b, v)

/-- Model of `ABRAbstract.compute` (linear strategy) with explicit dereferences. -/
def ABRLinearState.computeE (s : ABRLinearState) (now : ℚ) (bitrate : Option ℚ)
    (constraint : Option ℚ) (report : Option MediaReport) :
    Except String (ℚ × ABRLinearState) := do
  match bitrate with
  | none =>
    pure (s.core.startup,
      ⟨{ s.core with bitrate := none, bitrateConstraint := constraint }, s.vars⟩)
  | some b =>
    let r ← linearComputeBitrateE s.core s.vars now b constraint report
    pure (Max.max s.core.minimum (Min.min r.1 s.core.maximum),
      ⟨{ s.core with bitrate := some b, bitrateConstraint := constraint }, r.2⟩)

/-- Model of `ABRGrade._computeBitrate` with an explicit dereference at the loss
push `lossPercents.push(stats.loss_perc)` (guarded by
`stats && stats.loss_perc != null`). -/
def gradeComputeBitrateE (core : ABRCore) (v : GradeVars) (now b : ℚ)
    (constraint : Option ℚ) (report : Option MediaReport) :
    Except String (ℚ × GradeVars) := do
  let lossOpt : Option ℚ := (report.bind MediaReport.stats).bind MediaStats.loss_perc
  let v ←
    match lossOpt with
    | some _ => do
      let s ← getStatsE (report.bind MediaReport.stats)
      pure { v with lossPercents := v.lossPercents.push (s.loss_perc.getD 0) }
    | none => pure v
  pure (gradeComputeBitrateAux core v now b constraint)

/-- Model of `ABRAbstract.compute` (grade strategy) with explicit dereferences. -/
def ABRGradeState.computeE (s : ABRGradeState) (now : ℚ) (bitrate : Option ℚ)
    (constraint : Option ℚ) (report : Option MediaReport) :
    Except String (ℚ × ABRGradeState) := do
  match bitrate with
  | none =>
    pure (s.core.startup,
      ⟨{ s.core with bitrate := none, bitrateConstraint := constraint }, s.vars⟩)
  | some b =>
    let r ← gradeComputeBitrateE s.core s.vars now b constraint report
    pure (Max.max s.core.minimum (Min.min r.1 s.core.maximum),
      ⟨{ s.core with bitrate := some b, bitrateConstraint := constraint }, r.2⟩)

/-- Model of `MBRAbstract.compute` with explicit dereferences: after the
track-change block the source uses `this._mTrack` unconditionally (guarded
by the early `return false` when the metadata lookup failed, and by the
`!this._mTrack ||` short-circuit when the track did not change), and the
statistics object is dereferenced inside `_downBitrate` / `_upBitrate`
(guarded by the `if (!trackStats) return false`). -/
def mbrComputeE (m : Metadata) (sel : TracksSel) (stats : MBRStats) (now : ℚ)
    (st : MBRState) : Except String (Bool × TracksSel × MBRState) := do
  match sel.video.orElse fun _ => sel.audio with
  | none => pure (false, sel, { st with mTrack := none })
  | some track =>
    let changed : Bool :=
      match st.mTrack with
      | none => true
      | some t => t.idx ≠ track
    let st :=
      if changed then
        { st with appreciationTime := none, testTime := now, mTrack := m.get track }
      else st
    if changed ∧ st.mTrack = none then
      pure (false, sel, st)
    else
      let mt ← getTrackE st.mTrack
      let trackStats := if sel.video = some track then stats.video else stats.audio
      if trackStats = none then
        pure (false, sel, st)
      else
        let ts ← getRTCStatsE trackStats
        pure (mbrComputeBody m sel now st mt ts)

/- ## Theorems -/

theorem jsRound_of (q : ℚ) (m : ℤ) (h1 : (m : ℚ) ≤ q + 1/2) (h2 : q + 1/2 < m + 1) :
    jsRound q = (m : ℚ) := by
  unfold jsRound
  have : ⌊q + 1/2⌋ = m := Int.floor_eq_iff.2 ⟨h1, by linarith⟩
  rw [this]

theorem jsCeil_of (q : ℚ) (m : ℤ) (h1 : (m : ℚ) - 1 < q) (h2 : q ≤ m) :
    jsCeil q = (m : ℚ) := by
  unfold jsCeil
  have : ⌈q⌉ = m := Int.ceil_eq_iff.2 ⟨by linarith, h2⟩
  rw [this]

theorem listMin0_nonpos (l : List ℚ) : listMin0 l ≤ 0 := by
  induction l with
  | nil => simp [listMin0]
  | cons a t ih => simpa [listMin0] using Or.inr ih

theorem listMax0_nonneg (l : List ℚ) : 0 ≤ listMax0 l := by
  induction l with
  | nil => simp [listMax0]
  | cons a t ih => simpa [listMax0] using Or.inr ih

theorem listMin0_append_singleton (l : List ℚ) (v : ℚ) :
    listMin0 (l ++ [v]) = Min.min (listMin0 l) v := by
  induction l with
  | nil => simp [listMin0, min_comm]
  | cons a t ih => simp [listMin0] at ih ⊢; rw [ih, min_assoc]

theorem listMax0_append_singleton (l : List ℚ) (v : ℚ) :
    listMax0 (l ++ [v]) = Max.max (listMax0 l) v := by
  induction l with
  | nil => simp [listMax0, max_comm]
  | cons a t ih => simp [listMax0] at ih ⊢; rw [ih, max_assoc]

theorem listMin0_le_mem (l : List ℚ) (x : ℚ) (hx : x ∈ l) : listMin0 l ≤ x := by
  induction l with
  | nil => cases hx
  | cons a t ih =>
    rcases List.mem_cons.1 hx with h | h
    · simp [listMin0, h]
    · simp only [listMin0, List.foldr] at ih ⊢
      exact le_trans (min_le_right _ _) (ih h)

theorem le_listMax0_mem (l : List ℚ) (x : ℚ) (hx : x ∈ l) : x ≤ listMax0 l := by
  induction l with
  | nil => cases hx
  | cons a t ih =>
    rcases List.mem_cons.1 hx with h | h
    · simp [listMax0, h]
    · simp only [listMax0, List.foldr] at ih ⊢
      exact le_trans (ih h) (le_max_right _ _)

theorem numbers_inv_init (c : Option ℕ) : (Numbers.mk0 c).Inv := by
  simp [Numbers.mk0, Numbers.Inv, listMin0, listMax0]

theorem numbers_inv_pop (n : Numbers) (h : n.Inv) : n.popRun.2.Inv := by
  obtain ⟨hs, hmin, hmax, hmemo⟩ := h
  cases hq : n.q with
  | nil =>
    have h0 : n.minv = 0 := by rw [hmin, hq]; rfl
    have h1 : n.maxv = 0 := by rw [hmax, hq]; rfl
    have h2 : n.sum = 0 := by rw [hs, hq]; rfl
    simp [Numbers.popRun, Numbers.Inv, hq, h0, h1, h2, listMin0, listMax0]
  | cons f rest =>
    have hmin2 : n.minv = Min.min f (listMin0 rest) := by
      rw [hmin, hq]; rfl
    have hmax2 : n.maxv = Max.max f (listMax0 rest) := by
      rw [hmax, hq]; rfl
    have hsum2 : n.sum - f = rest.sum := by
      rw [hs, hq, List.sum_cons]; ring
    by_cases hfm : f = n.maxv
    · -- the front was the tracked maximum: the maximum is recomputed and the
      -- tracked minimum already equals the minimum over the remaining samples
      have hmr : n.minv = listMin0 rest := by
        rw [hmin2]
        refine min_eq_right (le_trans (listMin0_nonpos rest) ?_)
        rw [hfm, hmax2]
        exact le_trans (listMax0_nonneg rest) (le_max_right _ _)
      refine ⟨?_, ?_, ?_, ?_⟩ <;>
        simp [Numbers.popRun, hq, if_pos hfm, hsum2, hmr]
    · by_cases hfn : f = n.minv
      · have hmr : n.maxv = listMax0 rest := by
          rcases max_choice f (listMax0 rest) with hc | hc
          · exact absurd (hmax2.trans hc).symm hfm
          · rw [hmax2, hc]
        have hfm2 : ¬f = listMax0 rest := fun hc => hfm (hc.trans hmr.symm)
        refine ⟨?_, ?_, ?_, ?_⟩ <;>
          simp [Numbers.popRun, hq, hfm2, if_pos hfn, hsum2, hmr]
      · have h1 : n.minv = listMin0 rest := by
          rcases min_choice f (listMin0 rest) with hc | hc
          · exact absurd (hmin2.trans hc).symm hfn
          · rw [hmin2, hc]
        have h2 : n.maxv = listMax0 rest := by
          rcases max_choice f (listMax0 rest) with hc | hc
          · exact absurd (hmax2.trans hc).symm hfm
          · rw [hmax2, hc]
        have hfm2 : ¬f = listMax0 rest := fun hc => hfm (hc.trans h2.symm)
        have hfn2 : ¬f = listMin0 rest := fun hc => hfn (hc.trans h1.symm)
        refine ⟨?_, ?_, ?_, ?_⟩ <;>
          simp [Numbers.popRun, hq, hfm2, hfn2, hsum2, h1, h2]

theorem numbers_inv_push (n : Numbers) (v : ℚ) (h : n.Inv) : (n.push v).Inv := by
  obtain ⟨hs, hmin, hmax, hmemo⟩ := h
  have hm0 : n.minv ≤ 0 := hmin ▸ listMin0_nonpos n.q
  have hM0 : 0 ≤ n.maxv := hmax ▸ listMax0_nonneg n.q
  have step : ∀ n2 : Numbers, n2.Inv →
      (match n2.capacity with
        | some c => if n2.q.length > c then (n2.popRun).2 else n2
        | none => n2).Inv := by
    intro n2 h2
    cases n2.capacity with
    | some c =>
      by_cases hl : n2.q.length > c
      · simpa [hl] using numbers_inv_pop n2 h2
      · simpa [hl] using h2
    | none => exact h2
  have mid : ∀ mv xv : ℚ, mv = listMin0 (n.q ++ [v]) → xv = listMax0 (n.q ++ [v]) →
      Numbers.Inv
        { capacity := n.capacity, q := n.q ++ [v], sum := n.sum + v,
          minv := mv, maxv := xv, avgMemo := none } := by
    intro mv xv h1 hx2
    refine ⟨?_, h1, hx2, rfl⟩
    simp [hs, List.sum_append]
  by_cases hgt : v > n.maxv
  · have h1 : n.minv = listMin0 (n.q ++ [v]) := by
      rw [listMin0_append_singleton, ← hmin]
      exact (min_eq_left (le_trans hm0 (le_trans hM0 (le_of_lt hgt)))).symm
    have h2 : v = listMax0 (n.q ++ [v]) := by
      rw [listMax0_append_singleton, ← hmax]
      exact (max_eq_right (le_of_lt hgt)).symm
    simpa [Numbers.push, if_pos hgt] using step _ (mid _ _ h1 h2)
  · by_cases hlt : v < n.minv
    · have h1 : v = listMin0 (n.q ++ [v]) := by
        rw [listMin0_append_singleton, ← hmin]
        exact (min_eq_right (le_of_lt hlt)).symm
      have h2 : n.maxv = listMax0 (n.q ++ [v]) := by
        rw [listMax0_append_singleton, ← hmax]
        exact (max_eq_left (not_lt.1 hgt)).symm
      simpa [Numbers.push, if_neg hgt, if_pos hlt] using step _ (mid _ _ h1 h2)
    · have h1 : n.minv = listMin0 (n.q ++ [v]) := by
        rw [listMin0_append_singleton, ← hmin]
        exact (min_eq_left (not_lt.1 hlt)).symm
      have h2 : n.maxv = listMax0 (n.q ++ [v]) := by
        rw [listMax0_append_singleton, ← hmax]
        exact (max_eq_left (not_lt.1 hgt)).symm
      simpa [Numbers.push, if_neg hgt, if_neg hlt] using step _ (mid _ _ h1 h2)



theorem numbers_reaches_inv (n : Numbers) (h : n.Reaches) : n.Inv := by
  induction h with
  | init c => exact numbers_inv_init c
  | push n v _ ih => exact numbers_inv_push n v ih
  | pop n _ ih => exact numbers_inv_pop n ih

theorem length_mul_le_sum (l : List ℚ) (m : ℚ) (h : ∀ x ∈ l, m ≤ x) :
    m * l.length ≤ l.sum := by
  induction l with
  | nil => simp
  | cons a t ih =>
    have ha := h a (List.mem_cons_self a t)
    have ht := ih fun x hx => h x (List.mem_cons_of_mem a hx)
    simp only [List.sum_cons, List.length_cons]
    push_cast
    nlinarith

theorem sum_le_length_mul (l : List ℚ) (m : ℚ) (h : ∀ x ∈ l, x ≤ m) :
    l.sum ≤ m * l.length := by
  induction l with
  | nil => simp
  | cons a t ih =>
    have ha := h a (List.mem_cons_self a t)
    have ht := ih fun x hx => h x (List.mem_cons_of_mem a hx)
    simp only [List.sum_cons, List.length_cons]
    push_cast
    nlinarith

/-- C2 (amended): on every reachable non-empty sample window,
minimum ≤ average ≤ maximum holds and the average getter is exactly the
arithmetic mean of the held samples; the minimum and maximum getters,
however, equal the minimum and maximum of the held samples TOGETHER WITH
ZERO (the `Numbers` bookkeeping clamps them toward 0), not the plain
recomputed minimum and maximum claimed. -/
theorem C2_sample_window_getters (n : Numbers) (h : n.Reaches) (hne : n.q ≠ []) :
    n.minimum ≤ n.average ∧ n.average ≤ n.maximum ∧
    n.average = n.q.sum / n.q.length ∧
    n.minimum = listMin0 n.q ∧ n.maximum = listMax0 n.q := by
  obtain ⟨hs, hmin, hmax, hmemo⟩ := numbers_reaches_inv n h
  have hlen : 0 < (n.q.length : ℚ) := by
    have := List.length_pos.2 hne
    exact_mod_cast this
  have havg : n.average = n.q.sum / n.q.length := by
    simp [Numbers.average, hmemo, hs, hne]
  refine ⟨?_, ?_, havg, hmin, hmax⟩
  · rw [havg, Numbers.minimum, le_div_iff₀ hlen]
    exact length_mul_le_sum n.q n.minv fun x hx => hmin ▸ listMin0_le_mem n.q x hx
  · rw [havg, Numbers.maximum, div_le_iff₀ hlen]
    exact sum_le_length_mul n.q n.maxv fun x hx => hmax ▸ le_listMax0_mem n.q x hx

/-- Witness for C2 at a concrete reachable state: capacity 2, pushes of
3, 4 and 5 (the push of 5 evicts the 3), so the window holds [4, 5]. -/
theorem C2_sample_window_getters_witness :
    (((Numbers.mk0 (some 2)).push 3).push 4).push 5 = (((Numbers.mk0 (some 2)).push 3).push 4).push 5 ∧
    ((((Numbers.mk0 (some 2)).push 3).push 4).push 5).minimum ≤
        ((((Numbers.mk0 (some 2)).push 3).push 4).push 5).average ∧
      ((((Numbers.mk0 (some 2)).push 3).push 4).push 5).average ≤
        ((((Numbers.mk0 (some 2)).push 3).push 4).push 5).maximum ∧
      ((((Numbers.mk0 (some 2)).push 3).push 4).push 5).average =
        ((((Numbers.mk0 (some 2)).push 3).push 4).push 5).q.sum /
          ((((Numbers.mk0 (some 2)).push 3).push 4).push 5).q.length ∧
      ((((Numbers.mk0 (some 2)).push 3).push 4).push 5).minimum =
        listMin0 ((((Numbers.mk0 (some 2)).push 3).push 4).push 5).q ∧
      ((((Numbers.mk0 (some 2)).push 3).push 4).push 5).maximum =
        listMax0 ((((Numbers.mk0 (some 2)).push 3).push 4).push 5).q :=
  ⟨rfl,
    C2_sample_window_getters _
      (.push _ 5 (.push _ 4 (.push _ 3 (.init (some 2))))) (by decide)⟩

/-- Counterexample for C2 as stated: pushing the single sample 5 into a
fresh window leaves the minimum getter at 0, which differs from the
minimum recomputed over the held samples ([5], whose minimum is 5). -/
theorem C2_counterexample :
    ((Numbers.mk0 none).push 5).q = [5] ∧
    ((Numbers.mk0 none).push 5).minimum = 0 ∧
    ((Numbers.mk0 none).push 5).minimum ≠ recompMin ((Numbers.mk0 none).push 5).q := by
  refine ⟨by decide, by decide, ?_⟩
  decide

/-- C1 (amended): whenever the controller's bounds satisfy
minimum ≤ startup ≤ maximum (which construction does not itself enforce,
see the counterexample, but which holds whenever the construction
parameters respect it and is preserved by the setters), every `compute`
call — with either strategy and any combination of current bitrate,
constraint and report — returns a bitrate in [minimum, maximum]. -/
theorem C1_compute_in_bounds :
    (∀ (s : ABRLinearState) (now : ℚ) (b c : Option ℚ) (r : Option MediaReport),
      s.core.minimum ≤ s.core.startup → s.core.startup ≤ s.core.maximum →
      s.core.minimum ≤ (s.compute now b c r).1 ∧
        (s.compute now b c r).1 ≤ s.core.maximum) ∧
    (∀ (s : ABRGradeState) (now : ℚ) (b c : Option ℚ) (r : Option MediaReport),
      s.core.minimum ≤ s.core.startup → s.core.startup ≤ s.core.maximum →
      s.core.minimum ≤ (s.compute now b c r).1 ∧
        (s.compute now b c r).1 ≤ s.core.maximum) := by
  constructor
  · intro s now b c r h1 h2
    cases b with
    | none => exact ⟨h1, h2⟩
    | some b =>
      simp only [ABRLinearState.compute]
      exact ⟨le_max_left _ _, max_le (le_trans h1 h2) (min_le_right _ _)⟩
  · intro s now b c r h1 h2
    cases b with
    | none => exact ⟨h1, h2⟩
    | some b =>
      simp only [ABRGradeState.compute]
      exact ⟨le_max_left _ _, max_le (le_trans h1 h2) (min_le_right _ _)⟩

/-- Witness for C1 with default parameters: the first call (undefined
current bitrate) of both strategies stays within [200000, 3000000]. -/
theorem C1_compute_in_bounds_witness :
    ((ABRLinearState.init {}).core.minimum ≤
        ((ABRLinearState.init {}).compute 0 none none none).1 ∧
      ((ABRLinearState.init {}).compute 0 none none none).1 ≤
        (ABRLinearState.init {}).core.maximum) ∧
    ((ABRGradeState.init {}).core.minimum ≤
        ((ABRGradeState.init {}).compute 0 none none none).1 ∧
      ((ABRGradeState.init {}).compute 0 none none none).1 ≤
        (ABRGradeState.init {}).core.maximum) :=
  ⟨C1_compute_in_bounds.1 (ABRLinearState.init {}) 0 none none none
      (by decide) (by decide),
    C1_compute_in_bounds.2 (ABRGradeState.init {}) 0 none none none
      (by decide) (by decide)⟩

/-- Counterexample for C1 as stated: a controller constructed with
startup = 5000000 (and the default maximum 3000000) returns 5000000 on a
call with undefined current bitrate — outside [minimum, maximum], because
the constructor assigns the bounds without cross-clamping. -/
theorem C1_counterexample :
    ((ABRLinearState.init { startup := some 5000000 }).compute 0 none none none).1 = 5000000 ∧
    (ABRLinearState.init { startup := some 5000000 }).core.maximum = 3000000 ∧
    ¬((ABRLinearState.init { startup := some 5000000 }).compute 0 none none none).1 ≤
        (ABRLinearState.init { startup := some 5000000 }).core.maximum := by
  refine ⟨by decide, by decide, by decide⟩

/-- C3 (amended): the constructor assigns the (defaulted) parameters raw,
so minimum ≤ startup ≤ maximum holds after construction provided the
parameters already satisfy it; the invariant is then preserved by every
assignment to startup, minimum and maximum, and the two cross-clamping
rules hold: rounding the assigned value, setting maximum below the current
minimum pulls minimum and startup down to it, and setting minimum above
the current maximum pulls maximum and startup up to it. -/
theorem C3_bounds_invariant :
    (∀ p : ABRParams,
      p.minimum.getD 200000 ≤ p.startup.getD 2000000 →
      p.startup.getD 2000000 ≤ p.maximum.getD 3000000 →
      (ABRCore.init p).BoundsInv) ∧
    (∀ (c : ABRCore) (v : ℚ), c.BoundsInv →
      (c.setStartup v).BoundsInv ∧ (c.setMinimum v).BoundsInv ∧
        (c.setMaximum v).BoundsInv) ∧
    (∀ (c : ABRCore) (v : ℚ), jsRound v < c.minimum →
      (c.setMaximum v).minimum = jsRound v ∧ (c.setMaximum v).startup = jsRound v ∧
        (c.setMaximum v).maximum = jsRound v) ∧
    (∀ (c : ABRCore) (v : ℚ), jsRound v > c.maximum →
      (c.setMinimum v).maximum = jsRound v ∧ (c.setMinimum v).startup = jsRound v ∧
        (c.setMinimum v).minimum = jsRound v) := by
  refine ⟨?_, ?_, ?_, ?_⟩
  · intro p h1 h2
    exact ⟨h1, h2⟩
  · intro c v h
    obtain ⟨h1, h2⟩ := h
    refine ⟨⟨le_max_left _ _, max_le (le_trans h1 h2) (min_le_right _ _)⟩, ?_, ?_⟩
    · unfold ABRCore.setMinimum
      by_cases hgt : jsRound v > c.maximum
      · simp only [if_pos hgt]
        exact ⟨le_refl _, le_refl _⟩
      · by_cases hst : c.startup < jsRound v
        · simp only [if_neg hgt, if_pos hst]
          exact ⟨le_refl _, not_lt.1 hgt⟩
        · simp only [if_neg hgt, if_neg hst]
          exact ⟨not_lt.1 hst, h2⟩
    · unfold ABRCore.setMaximum
      by_cases hlt : jsRound v < c.minimum
      · simp only [if_pos hlt]
        exact ⟨le_refl _, le_refl _⟩
      · by_cases hst : c.startup > jsRound v
        · simp only [if_neg hlt, if_pos hst]
          exact ⟨not_lt.1 hlt, le_refl _⟩
        · simp only [if_neg hlt, if_neg hst]
          exact ⟨h1, not_lt.1 hst⟩
  · intro c v h
    simp [ABRCore.setMaximum, if_pos h]
  · intro c v h
    simp [ABRCore.setMinimum, if_pos h]

/-- Witness for C3: default construction satisfies the invariant; setting
maximum to 100000 (below the minimum 200000) keeps the invariant and pulls
minimum and startup down to 100000. -/
theorem C3_bounds_invariant_witness :
    (ABRCore.init {}).BoundsInv ∧
    ((ABRCore.init {}).setMaximum 100000).BoundsInv ∧
    (((ABRCore.init {}).setMaximum 100000).minimum = jsRound 100000 ∧
      ((ABRCore.init {}).setMaximum 100000).startup = jsRound 100000 ∧
      ((ABRCore.init {}).setMaximum 100000).maximum = jsRound 100000) :=
  ⟨C3_bounds_invariant.1 {} (by decide) (by decide),
    (C3_bounds_invariant.2.1 (ABRCore.init {}) 100000
        (C3_bounds_invariant.1 {} (by decide) (by decide))).2.2,
    C3_bounds_invariant.2.2.1 (ABRCore.init {}) 100000
      (by rw [jsRound_of 100000 100000 (by norm_num) (by norm_num)]
          norm_num [ABRCore.init])⟩

/-- Counterexample for C3 as stated: constructing with
minimum = 4000000 (defaults startup 2000000 and maximum 3000000) leaves
minimum > startup — the constructor performs no cross-clamping. -/
theorem C3_counterexample :
    (ABRCore.init { minimum := some 4000000 }).minimum = 4000000 ∧
    (ABRCore.init { minimum := some 4000000 }).startup = 2000000 ∧
    ¬(ABRCore.init { minimum := some 4000000 }).minimum ≤
        (ABRCore.init { minimum := some 4000000 }).startup := by
  refine ⟨by decide, by decide, by decide⟩

/-- C5 (amended): after a call whose report carried loss_perc = 5 (with no
binding constraint), a compute call with current bitrate b in
[minimum, maximum], no binding constraint and loss_perc = 10 returns
round(0.9 · b) CLAMPED into [minimum, maximum] (the clamp of
`ABRAbstract.compute` can move the result up to the minimum, see the
counterexample). -/
theorem C5_loss_decrease (s : ABRLinearState) (now1 now2 b1 b : ℚ) (c1 c2 : Option ℚ)
    (hc1 : constraintHit b1 c1 = false) (hc2 : constraintHit b c2 = false)
    (hmin : s.core.minimum ≤ b) (hmax : b ≤ s.core.maximum) :
    (((s.compute now1 (some b1) c1 (some ⟨some ⟨some 5⟩⟩)).2).compute now2 (some b) c2
        (some ⟨some ⟨some 10⟩⟩)).1 =
      Max.max s.core.minimum (Min.min (jsRound ((9/10) * b)) s.core.maximum) := by
  have hq5 : qTruthy (some (5 : ℚ)) = true := by norm_num [qTruthy]
  have hq10 : qTruthy (some (10 : ℚ)) = true := by norm_num [qTruthy]
  have hge : lossGE 10 (some (5 : ℚ)) = true := by norm_num [lossGE]
  have hfrac : ((1 : ℚ) - 10 / 100) * b = (9/10) * b := by ring_nf
  simp only [ABRLinearState.compute, linearComputeBitrate, Option.some_bind, hc1, hc2,
    Bool.false_eq_true, if_false, hq5, hq10, if_true, Option.getD_some, hge, hfrac]

/-- Witness for C5 at the default bounds with b = 1000000 and no
constraint. -/
theorem C5_loss_decrease_witness :
    (((ABRLinearState.init {}).compute 0 (some 1000000) none
          (some ⟨some ⟨some 5⟩⟩)).2.compute 1 (some 1000000) none
        (some ⟨some ⟨some 10⟩⟩)).1 =
      Max.max (ABRLinearState.init {}).core.minimum
        (Min.min (jsRound ((9/10) * 1000000)) (ABRLinearState.init {}).core.maximum) :=
  C5_loss_decrease (ABRLinearState.init {}) 0 1 1000000 1000000 none none rfl rfl
    (by norm_num [ABRLinearState.init, ABRCore.init])
    (by norm_num [ABRLinearState.init, ABRCore.init])

/-- Counterexample for C5 as stated: with the default bounds and current
bitrate 200000 (= minimum, hence inside [minimum, maximum]), loss 5 then
loss 10, the call returns 200000 — not round(0.9 · 200000) = 180000,
because the result is clamped back up to the minimum. -/
theorem C5_counterexample :
    (((ABRLinearState.init {}).compute 0 (some 200000) none
          (some ⟨some ⟨some 5⟩⟩)).2.compute 1 (some 200000) none
        (some ⟨some ⟨some 10⟩⟩)).1 = 200000 ∧
    jsRound ((9/10) * 200000) = 180000 ∧ (200000 : ℚ) ≠ 180000 := by
  have hr : jsRound ((9/10) * (200000 : ℚ)) = 180000 := by
    have h : (9/10 : ℚ) * 200000 = 180000 := by norm_num
    rw [h]
    exact_mod_cast jsRound_of 180000 180000 (by norm_num) (by norm_num)
  refine ⟨?_, hr, by norm_num⟩
  have hfrac : ((1 : ℚ) - 10 / 100) * 200000 = (9/10) * 200000 := by norm_num
  have hr2 : jsRound (180000 : ℚ) = 180000 :=
    mod_cast jsRound_of 180000 180000 (by norm_num) (by norm_num)
  norm_num [ABRLinearState.compute, linearComputeBitrate, ABRLinearState.init,
    ABRCore.init, LinearVars.init, constraintHit, qTruthy, lossGE, hfrac, hr, hr2,
    min_def, max_def]

/-- C4 (evaluation at the failing input): a freshly constructed (= freshly
reset) ABRLinear controller with the default appreciationDuration 4000 ms
performs NO upward adjustment on the second of two loss-free calls made
4001 ms apart (timestamps 1000 and 5001) — the strategy ignores
`appreciationDuration` and uses the hardcoded `STABLE_TIMEOUT_MS = 11000`;
with the second call at timestamp 12000 (11000 ms after the first) exactly
one upward adjustment (2000000 → 2500000) takes place. -/
theorem C4_code_bug_eval :
    (ABRLinearState.init {}).core.appreciationDuration = 4000 ∧
    ((((ABRLinearState.init {}).compute 1000 (some 2000000) none
            (some ⟨some ⟨some 0⟩⟩)).2).compute 5001 (some 2000000) none
        (some ⟨some ⟨some 0⟩⟩)).1 = 2000000 ∧
    ((((ABRLinearState.init {}).compute 1000 (some 2000000) none
            (some ⟨some ⟨some 0⟩⟩)).2).compute 12000 (some 2000000) none
        (some ⟨some ⟨some 0⟩⟩)).1 = 2500000 := by
  have hc : jsCeil (500000 : ℚ) = 500000 :=
    mod_cast jsCeil_of 500000 500000 (by norm_num) (by norm_num)
  refine ⟨rfl, ?_, ?_⟩ <;>
    norm_num [ABRLinearState.compute, linearComputeBitrate, ABRLinearState.init,
      ABRCore.init, LinearVars.init, ABRCore.recoveryFactor, constraintHit, qTruthy,
      lossGE, STABLE_TIMEOUT_MS, hc, min_def, max_def]

/-- C8 (evaluation at the failing input): with a fresh ABRGrade controller,
a first call at t = 60000 with constraint 500000 (below maximum) arms the
recovery timer for t = 70000; the second call at t = 70000 succeeds the
recovery and then executes `vars.bitrateRecoveryTimeout = now`, leaving the
back-off timeout at 70000 ms — outside the documented [2500, 60000] bounds
(the assignment stores a timestamp in the timeout field; the otherwise
never-assigned `bitrateRecoveryTime` field was evidently intended). -/
theorem C8_code_bug_eval :
    ((((ABRGradeState.init {}).compute 60000 (some 1000000) (some 500000)
              none).2).compute 70000 (some 1000000) (some 500000)
          none).2.vars.bitrateRecoveryTimeout = 70000 ∧
    ¬((70000 : ℚ) ≤ BITRATE_RECOVERY_MAX_TIMEOUT) := by
  have h1 : jsRound (525000 : ℚ) = 525000 :=
    mod_cast jsRound_of 525000 525000 (by norm_num) (by norm_num)
  have h2 : jsRound (7500 : ℚ) = 7500 :=
    mod_cast jsRound_of 7500 7500 (by norm_num) (by norm_num)
  have es1 : gradeStableMetrics ⟨none, none, 2000000, 200000, 3000000, 2, 4000⟩
      GradeVars.init 60000 1000000 (some 500000) =
      ⟨⟨some 5, [], 0, 0, 0, none⟩, ⟨some 15, [500000], 500000, 0, 500000, none⟩,
        64000, 10000, 0, none, none⟩ := by
    norm_num [gradeStableMetrics, GradeVars.init, Numbers.average, Numbers.mk0,
      Numbers.push, Numbers.popRun, Option.orElse, min_def, max_def]
  have ed1 : gradeConstraintDecrease ⟨none, none, 2000000, 200000, 3000000, 2, 4000⟩
      ⟨⟨some 5, [], 0, 0, 0, none⟩, ⟨some 15, [500000], 500000, 0, 500000, none⟩,
        64000, 10000, 0, none, none⟩ 60000 1000000 (some 500000) =
      (1000000,
        ⟨⟨some 5, [], 0, 0, 0, none⟩, ⟨some 15, [500000], 500000, 0, 500000, none⟩,
          64000, 10000, 0, none, none⟩) := by
    norm_num [gradeConstraintDecrease]
  have eb1 : gradeConstraintBlock ⟨none, none, 2000000, 200000, 3000000, 2, 4000⟩
      ⟨⟨some 5, [], 0, 0, 0, none⟩, ⟨some 15, [500000], 500000, 0, 500000, none⟩,
        64000, 10000, 0, none, none⟩ 60000 1000000 (some 500000) =
      (1000000,
        ⟨⟨some 5, [], 0, 0, 0, none⟩, ⟨some 15, [500000], 500000, 0, 500000, none⟩,
          64000, 10000, 70000, none, none⟩) := by
    norm_num [gradeConstraintBlock, qTruthy]
  have hm12 : (1 : ℚ) ⊔ 2 = 2 := by norm_num
  have e1 : ((ABRGradeState.init {}).compute 60000 (some 1000000) (some 500000)
        none).2 =
      ⟨⟨some 1000000, some 500000, 2000000, 200000, 3000000, 2, 4000⟩,
        ⟨⟨some 5, [], 0, 0, 0, none⟩, ⟨some 15, [500000], 500000, 0, 500000, none⟩,
          64000, 10000, 70000, none, none⟩⟩ := by
    simp only [ABRGradeState.compute, gradeComputeBitrate, gradeComputeBitrateAux,
      ABRGradeState.init, ABRCore.init, Option.none_bind, Option.getD_some,
      Option.getD_none, hm12, es1, ed1, eb1]
  have es2 : gradeStableMetrics ⟨some 1000000, some 500000, 2000000, 200000, 3000000, 2, 4000⟩
      ⟨⟨some 5, [], 0, 0, 0, none⟩, ⟨some 15, [500000], 500000, 0, 500000, none⟩,
        64000, 10000, 70000, none, none⟩ 70000 1000000 (some 500000) =
      ⟨⟨some 5, [], 0, 0, 0, none⟩,
        ⟨some 15, [500000, 500000], 1000000, 0, 500000, none⟩,
        74000, 10000, 70000, none, none⟩ := by
    norm_num [gradeStableMetrics, Numbers.average, Numbers.push, Numbers.popRun,
      Option.orElse, min_def, max_def]
  have ed2 : gradeConstraintDecrease ⟨some 1000000, some 500000, 2000000, 200000, 3000000, 2, 4000⟩
      ⟨⟨some 5, [], 0, 0, 0, none⟩,
        ⟨some 15, [500000, 500000], 1000000, 0, 500000, none⟩,
        74000, 10000, 70000, none, none⟩ 70000 1000000 (some 500000) =
      (1000000,
        ⟨⟨some 5, [], 0, 0, 0, none⟩,
          ⟨some 15, [500000, 500000], 1000000, 0, 500000, none⟩,
          74000, 10000, 70000, none, none⟩) := by
    norm_num [gradeConstraintDecrease]
  have eh : gradeRecoveryHandler ⟨some 1000000, some 500000, 2000000, 200000, 3000000, 2, 4000⟩
      ⟨⟨some 5, [], 0, 0, 0, none⟩,
        ⟨some 15, [500000, 500000], 1000000, 0, 500000, none⟩,
        74000, 10000, 70000, none, none⟩ 500000 =
      (some 525000,
        ⟨⟨some 5, [], 0, 0, 0, none⟩,
          ⟨some 15, [500000, 500000], 1000000, 0, 500000, none⟩,
          74000, 7500, 70000, none, none⟩) := by
    norm_num [gradeRecoveryHandler, gradeIncreaseTargetBitrate,
      GradeVars.decreaseRecoveryTimeout, Numbers.average, qTruthy, h1, h2,
      BITRATE_RECOVERY_MIN_TIMEOUT, max_def]
  have eb2 : gradeConstraintBlock ⟨some 1000000, some 500000, 2000000, 200000, 3000000, 2, 4000⟩
      ⟨⟨some 5, [], 0, 0, 0, none⟩,
        ⟨some 15, [500000, 500000], 1000000, 0, 500000, none⟩,
        74000, 10000, 70000, none, none⟩ 70000 1000000 (some 500000) =
      (525000,
        ⟨⟨some 5, [], 0, 0, 0, none⟩,
          ⟨some 15, [500000, 500000], 1000000, 0, 500000, none⟩,
          74000, 70000, 0, none, none⟩) := by
    norm_num [gradeConstraintBlock, qTruthy, eh]
  constructor
  · rw [e1]
    simp only [ABRGradeState.compute, gradeComputeBitrate, gradeComputeBitrateAux,
      Option.none_bind, es2, ed2, eb2]
  · norm_num [BITRATE_RECOVERY_MAX_TIMEOUT]


/-- C6: on the descending ladder C(3 Mbps) ↔ B(2 Mbps) ↔ A(1 Mbps) with
video track B selected, two consecutive compute calls of a fresh selector
whose statistics show strictly increasing packetsLost and strictly
increasing nackCount make the second call switch the video selection down
to A and return true, after which upDelay has grown from 0 by
learningUpStep = 1400, capped at maximumUpDelay = 28000. -/
theorem C6_mbr_down_switch (now1 now2 l1 l2 n1 n2 : ℚ) (k1 k2 : Option ℚ)
    (ht : now1 < now2) (hl : l1 < l2) (hn : n1 < n2) (hn0 : 0 ≤ n1) :
    (mbrCompute demoLadder ⟨none, some 2⟩ ⟨none, some ⟨some l1, some n1, k1⟩⟩ now1
        (MBRState.init {})).1 = false ∧
    (mbrCompute demoLadder
        (mbrCompute demoLadder ⟨none, some 2⟩ ⟨none, some ⟨some l1, some n1, k1⟩⟩ now1
            (MBRState.init {})).2.1
        ⟨none, some ⟨some l2, some n2, k2⟩⟩ now2
        (mbrCompute demoLadder ⟨none, some 2⟩ ⟨none, some ⟨some l1, some n1, k1⟩⟩ now1
            (MBRState.init {})).2.2).1 = true ∧
    (mbrCompute demoLadder
        (mbrCompute demoLadder ⟨none, some 2⟩ ⟨none, some ⟨some l1, some n1, k1⟩⟩ now1
            (MBRState.init {})).2.1
        ⟨none, some ⟨some l2, some n2, k2⟩⟩ now2
        (mbrCompute demoLadder ⟨none, some 2⟩ ⟨none, some ⟨some l1, some n1, k1⟩⟩ now1
            (MBRState.init {})).2.2).2.1.video = some 1 ∧
    (mbrCompute demoLadder
        (mbrCompute demoLadder ⟨none, some 2⟩ ⟨none, some ⟨some l1, some n1, k1⟩⟩ now1
            (MBRState.init {})).2.1
        ⟨none, some ⟨some l2, some n2, k2⟩⟩ now2
        (mbrCompute demoLadder ⟨none, some 2⟩ ⟨none, some ⟨some l1, some n1, k1⟩⟩ now1
            (MBRState.init {})).2.2).2.2.upDelay =
      Min.min ((MBRState.init {}).upDelay + (MBRState.init {}).learningUpStep)
        (MBRState.init {}).maximumUpDelay := by
  have hp : (0:ℚ) < now2 - now1 := sub_pos.2 ht
  have hn2 : n2 ≠ 0 := ne_of_gt (lt_of_le_of_lt hn0 hn)
  have hmt : MType.video ≠ MType.audio := by decide
  have h1 : mbrCompute demoLadder ⟨none, some 2⟩ ⟨none, some ⟨some l1, some n1, k1⟩⟩
      now1 (MBRState.init {}) =
      (false, ⟨none, some 2⟩,
        ⟨some trackB, 1400, 28000, 0, now1, some now1, l1, n1, k1.getD 0⟩) := by
    cases k1 with
    | none =>
      norm_num [mbrCompute, mbrComputeBody, MBRState.init, MBRParams.learningUpStep,
        LEARNING_UP_STEP, MAXIMUM_UP_DELAY, demoLadder, Metadata.get, trackB,
        mbrDownBitrate, mbrUpBitrate, qTruthy, Option.orElse, hmt]
    | some k =>
      norm_num [mbrCompute, mbrComputeBody, MBRState.init, MBRParams.learningUpStep,
        LEARNING_UP_STEP, MAXIMUM_UP_DELAY, demoLadder, Metadata.get, trackB,
        mbrDownBitrate, mbrUpBitrate, qTruthy, Option.orElse, hmt]
  have h2 : mbrCompute demoLadder ⟨none, some 2⟩ ⟨none, some ⟨some l2, some n2, k2⟩⟩
      now2 ⟨some trackB, 1400, 28000, 0, now1, some now1, l1, n1, k1.getD 0⟩ =
      (true, ⟨none, some 1⟩,
        ⟨some trackB, 1400, 28000, 1400, now1, none, l2, n2, k1.getD 0⟩) := by
    norm_num [mbrCompute, mbrComputeBody, mbrSwitch, mbrUpdateTrack, demoLadder,
      Metadata.get, trackB, trackA, mbrDownBitrate, qTruthy, Option.orElse, hp, hl,
      hn, hn2, min_def]
  rw [h1]
  norm_num [h2, MBRState.init, MBRParams.learningUpStep, MBRParams.maximumUpDelay,
    LEARNING_UP_STEP, MAXIMUM_UP_DELAY, min_def]

/-- Witness for C6: calls at t = 1000 and t = 2000 with packetsLost 5 → 9
and nackCount 1 → 3. -/
theorem C6_mbr_down_switch_witness :
    (mbrCompute demoLadder ⟨none, some 2⟩ ⟨none, some ⟨some 5, some 1, none⟩⟩ 1000
        (MBRState.init {})).1 = false ∧
    (mbrCompute demoLadder
        (mbrCompute demoLadder ⟨none, some 2⟩ ⟨none, some ⟨some 5, some 1, none⟩⟩ 1000
            (MBRState.init {})).2.1
        ⟨none, some ⟨some 9, some 3, none⟩⟩ 2000
        (mbrCompute demoLadder ⟨none, some 2⟩ ⟨none, some ⟨some 5, some 1, none⟩⟩ 1000
            (MBRState.init {})).2.2).1 = true ∧
    (mbrCompute demoLadder
        (mbrCompute demoLadder ⟨none, some 2⟩ ⟨none, some ⟨some 5, some 1, none⟩⟩ 1000
            (MBRState.init {})).2.1
        ⟨none, some ⟨some 9, some 3, none⟩⟩ 2000
        (mbrCompute demoLadder ⟨none, some 2⟩ ⟨none, some ⟨some 5, some 1, none⟩⟩ 1000
            (MBRState.init {})).2.2).2.1.video = some 1 ∧
    (mbrCompute demoLadder
        (mbrCompute demoLadder ⟨none, some 2⟩ ⟨none, some ⟨some 5, some 1, none⟩⟩ 1000
            (MBRState.init {})).2.1
        ⟨none, some ⟨some 9, some 3, none⟩⟩ 2000
        (mbrCompute demoLadder ⟨none, some 2⟩ ⟨none, some ⟨some 5, some 1, none⟩⟩ 1000
            (MBRState.init {})).2.2).2.2.upDelay =
      Min.min ((MBRState.init {}).upDelay + (MBRState.init {}).learningUpStep)
        (MBRState.init {}).maximumUpDelay :=
  C6_mbr_down_switch 1000 2000 5 9 1 3 none none (by norm_num) (by norm_num)
    (by norm_num) (by norm_num)

/-- C7 (amended): immediately after a down-switch (reference track still
the old B, selection moved to A, back-off d), the first loss-free call
re-anchors and starts the good streak; a later loss-free call whose
good-streak elapsed time is below the current upDelay performs no
up-switch (returns false, selection unchanged); and a loss-free call after
upDelay has elapsed performs the up-switch PROVIDED the strategy's
recovery predicate also passes (forced here by more than 10000 ms of good
streak) — the predicate is an additional gate the claim omits, see the
counterexample. -/
theorem C7_up_delay_gate (now3 now4 now5 d tt0 l0 n0 k0 l n : ℚ)
    (h3 : 0 < now3) (h4 : now4 - now3 < d) (h5 : (10000:ℚ) < now5 - now3)
    (hd : d ≤ now5 - now3) :
    (mbrCompute demoLadder ⟨none, some 1⟩ ⟨none, some ⟨some l, some n, none⟩⟩ now3
        ⟨some trackB, 1400, 28000, d, tt0, none, l0, n0, k0⟩).1 = false ∧
    (mbrCompute demoLadder
        (mbrCompute demoLadder ⟨none, some 1⟩ ⟨none, some ⟨some l, some n, none⟩⟩ now3
            ⟨some trackB, 1400, 28000, d, tt0, none, l0, n0, k0⟩).2.1
        ⟨none, some ⟨some l, some n, none⟩⟩ now4
        (mbrCompute demoLadder ⟨none, some 1⟩ ⟨none, some ⟨some l, some n, none⟩⟩ now3
            ⟨some trackB, 1400, 28000, d, tt0, none, l0, n0, k0⟩).2.2).1 = false ∧
    (mbrCompute demoLadder
        (mbrCompute demoLadder ⟨none, some 1⟩ ⟨none, some ⟨some l, some n, none⟩⟩ now3
            ⟨some trackB, 1400, 28000, d, tt0, none, l0, n0, k0⟩).2.1
        ⟨none, some ⟨some l, some n, none⟩⟩ now4
        (mbrCompute demoLadder ⟨none, some 1⟩ ⟨none, some ⟨some l, some n, none⟩⟩ now3
            ⟨some trackB, 1400, 28000, d, tt0, none, l0, n0, k0⟩).2.2).2.1 =
      ⟨none, some 1⟩ ∧
    (mbrCompute demoLadder ⟨none, some 1⟩ ⟨none, some ⟨some l, some n, none⟩⟩ now5
        ⟨some trackA, 1400, 28000, d, now3, some now3, l, n, k0⟩).1 = true ∧
    (mbrCompute demoLadder ⟨none, some 1⟩ ⟨none, some ⟨some l, some n, none⟩⟩ now5
        ⟨some trackA, 1400, 28000, d, now3, some now3, l, n, k0⟩).2.1.video = some 2 := by
  have hne3 : now3 ≠ 0 := ne_of_gt h3
  have hnd : ¬(now5 - now3 < d) := not_lt.2 hd
  have hmt : MType.video ≠ MType.audio := by decide
  have h1 : mbrCompute demoLadder ⟨none, some 1⟩ ⟨none, some ⟨some l, some n, none⟩⟩
      now3 ⟨some trackB, 1400, 28000, d, tt0, none, l0, n0, k0⟩ =
      (false, ⟨none, some 1⟩, ⟨some trackA, 1400, 28000, d, now3, some now3, l, n, k0⟩) := by
    norm_num [mbrCompute, mbrComputeBody, demoLadder, Metadata.get, trackA, trackB,
      mbrDownBitrate, mbrUpBitrate, qTruthy, Option.orElse, hmt]
  have h2 : mbrCompute demoLadder ⟨none, some 1⟩ ⟨none, some ⟨some l, some n, none⟩⟩
      now4 ⟨some trackA, 1400, 28000, d, now3, some now3, l, n, k0⟩ =
      (false, ⟨none, some 1⟩, ⟨some trackA, 1400, 28000, d, now3, some now3, l, n, k0⟩) := by
    by_cases hx : (10000:ℚ) < now4 - now3 <;>
      norm_num [mbrCompute, mbrComputeBody, demoLadder, Metadata.get, trackA,
        mbrDownBitrate, mbrUpBitrate, qTruthy, Option.orElse, hmt, hne3, h4, hx]
  have h5r : mbrCompute demoLadder ⟨none, some 1⟩ ⟨none, some ⟨some l, some n, none⟩⟩
      now5 ⟨some trackA, 1400, 28000, d, now3, some now3, l, n, k0⟩ =
      (true, ⟨none, some 2⟩, ⟨some trackA, 1400, 28000, d, now3, some now3, l, n, k0⟩) := by
    norm_num [mbrCompute, mbrComputeBody, mbrSwitch, mbrUpdateTrack, demoLadder,
      Metadata.get, trackA, mbrDownBitrate, mbrUpBitrate, qTruthy, Option.orElse,
      hmt, hne3, h5, hnd]
  rw [h1]
  norm_num [h2, h5r]

/-- Witness for C7: re-anchor at t = 3000... here t₃ = 1000, a gated call
at t₄ = 2000 (streak 1000 ms < upDelay 1400) and a successful up-switch at
t₅ = 12001 (streak 11001 ms > 10000). -/
theorem C7_up_delay_gate_witness :
    (mbrCompute demoLadder ⟨none, some 1⟩ ⟨none, some ⟨some 9, some 3, none⟩⟩ 1000
        ⟨some trackB, 1400, 28000, 1400, 0, none, 0, 0, 0⟩).1 = false ∧
    (mbrCompute demoLadder
        (mbrCompute demoLadder ⟨none, some 1⟩ ⟨none, some ⟨some 9, some 3, none⟩⟩ 1000
            ⟨some trackB, 1400, 28000, 1400, 0, none, 0, 0, 0⟩).2.1
        ⟨none, some ⟨some 9, some 3, none⟩⟩ 2000
        (mbrCompute demoLadder ⟨none, some 1⟩ ⟨none, some ⟨some 9, some 3, none⟩⟩ 1000
            ⟨some trackB, 1400, 28000, 1400, 0, none, 0, 0, 0⟩).2.2).1 = false ∧
    (mbrCompute demoLadder
        (mbrCompute demoLadder ⟨none, some 1⟩ ⟨none, some ⟨some 9, some 3, none⟩⟩ 1000
            ⟨some trackB, 1400, 28000, 1400, 0, none, 0, 0, 0⟩).2.1
        ⟨none, some ⟨some 9, some 3, none⟩⟩ 2000
        (mbrCompute demoLadder ⟨none, some 1⟩ ⟨none, some ⟨some 9, some 3, none⟩⟩ 1000
            ⟨some trackB, 1400, 28000, 1400, 0, none, 0, 0, 0⟩).2.2).2.1 =
      ⟨none, some 1⟩ ∧
    (mbrCompute demoLadder ⟨none, some 1⟩ ⟨none, some ⟨some 9, some 3, none⟩⟩ 12001
        ⟨some trackA, 1400, 28000, 1400, 1000, some 1000, 9, 3, 0⟩).1 = true ∧
    (mbrCompute demoLadder ⟨none, some 1⟩ ⟨none, some ⟨some 9, some 3, none⟩⟩ 12001
        ⟨some trackA, 1400, 28000, 1400, 1000, some 1000, 9, 3, 0⟩).2.1.video = some 2 :=
  C7_up_delay_gate 1000 2000 12001 1400 0 0 0 0 9 3 (by norm_num) (by norm_num)
    (by norm_num) (by norm_num)

/-- Counterexample for C7 as stated: after a down-switch (upDelay 1400,
selection at A) and a re-anchoring loss-free call at t = 3000, a loss-free
call at t = 6000 — good streak 3000 ms, well past upDelay = 1400 — still
performs NO up-switch (returns false, selection unchanged), because the
recovery predicate has not passed (no keyFramesDecoded evidence and the
streak is under the 10000 ms GOP bound). -/
theorem C7_counterexample :
    ((6000:ℚ) - 3000 > 1400) ∧
    (mbrCompute demoLadder ⟨none, some 1⟩ ⟨none, some ⟨some 9, some 3, none⟩⟩ 6000
        (mbrCompute demoLadder ⟨none, some 1⟩ ⟨none, some ⟨some 9, some 3, none⟩⟩ 3000
            ⟨some trackB, 1400, 28000, 1400, 2000, none, 9, 3, 0⟩).2.2).1 = false ∧
    (mbrCompute demoLadder ⟨none, some 1⟩ ⟨none, some ⟨some 9, some 3, none⟩⟩ 6000
        (mbrCompute demoLadder ⟨none, some 1⟩ ⟨none, some ⟨some 9, some 3, none⟩⟩ 3000
            ⟨some trackB, 1400, 28000, 1400, 2000, none, 9, 3, 0⟩).2.2).2.1.video =
      some 1 := by
  have hmt : MType.video ≠ MType.audio := by decide
  have h1 : mbrCompute demoLadder ⟨none, some 1⟩ ⟨none, some ⟨some 9, some 3, none⟩⟩
      3000 ⟨some trackB, 1400, 28000, 1400, 2000, none, 9, 3, 0⟩ =
      (false, ⟨none, some 1⟩,
        ⟨some trackA, 1400, 28000, 1400, 3000, some 3000, 9, 3, 0⟩) := by
    norm_num [mbrCompute, mbrComputeBody, demoLadder, Metadata.get, trackA, trackB,
      mbrDownBitrate, mbrUpBitrate, qTruthy, Option.orElse, hmt]
  rw [h1]
  norm_num [mbrCompute, mbrComputeBody, demoLadder, Metadata.get, trackA,
    mbrDownBitrate, mbrUpBitrate, qTruthy, Option.orElse, hmt]

theorem skipChain_ok (present : ℕ → Bool) (next : ℕ → Option ℕ) (rank : ℕ → ℕ)
    (hr : ∀ i j, next i = some j → rank j < rank i) :
    ∀ (fuel : ℕ) (r : Option ℕ), (∀ i, r = some i → rank i < fuel) →
      skipChain present next fuel r = none ∨
        ∃ j, skipChain present next fuel r = some j ∧ present j = true := by
  intro fuel
  induction fuel with
  | zero =>
    intro r hb
    cases r with
    | none => exact Or.inl rfl
    | some i => exact absurd (hb i rfl) (Nat.not_lt_zero _)
  | succ f ih =>
    intro r hb
    cases r with
    | none => exact Or.inl rfl
    | some i =>
      by_cases hp : present i = true
      · exact Or.inr ⟨i, by simp [skipChain, hp], hp⟩
      · have hb2 : ∀ j, next i = some j → rank j < f := fun j hj =>
          lt_of_lt_of_le (hr i j hj) (Nat.lt_succ_iff.1 (hb i rfl))
        have := ih (next i) (fun j hj => hb2 j hj)
        simpa [skipChain, hp] using this

theorem find?_isSome_map_keyed (l : List (ℕ × MTrack)) (g : ℕ × MTrack → MTrack) (j : ℕ) :
    ((l.map fun p => (p.1, g p)).find? fun p => p.1 = j).isSome =
      (l.find? fun p => p.1 = j).isSome := by
  induction l with
  | nil => rfl
  | cons a t ih =>
    by_cases h : a.1 = j
    · simp [List.find?, h]
    · simpa [List.find?, h] using ih

/-- C10: for every metadata and every codec set, under the ladder
well-formedness assumption that the original up and down reference chains
are acyclic (witnessed by rank functions that strictly decrease along each
chain and are bounded by the fix-up fuel), every track remaining in
`subset(codecs)`'s tracks map has its up and down references either absent
or pointing (by index) at a track that is itself present in the resulting
map — filtering never leaves a reference to an excluded rendition. -/
theorem C10_subset_no_dangling (m : Metadata) (cs : List String)
    (rankUp rankDown : ℕ → ℕ)
    (hru : ∀ i j, chainNext m MTrack.up i = some j → rankUp j < rankUp i)
    (hrd : ∀ i j, chainNext m MTrack.down i = some j → rankDown j < rankDown i)
    (hbu : ∀ i, rankUp i < m.tracks.length + 1)
    (hbd : ∀ i, rankDown i < m.tracks.length + 1) :
    ∀ p ∈ (m.subset (some cs)).tracks,
      (p.2.up = none ∨
        ∃ j, p.2.up = some j ∧ (m.subset (some cs)).hasIdx j = true) ∧
      (p.2.down = none ∨
        ∃ j, p.2.down = some j ∧ (m.subset (some cs)).hasIdx j = true) := by
  intro p hp
  simp only [Metadata.subset, List.mem_map] at hp
  obtain ⟨q, hq, hpq⟩ := hp
  have hasIdx_eq : ∀ j, (m.subset (some cs)).hasIdx j =
      ((m.tracks.filter fun p => ¬(removedIdxs cs m.audios ++
          removedIdxs cs m.videos).contains p.1).find? fun p => p.1 = j).isSome := by
    intro j
    simp only [Metadata.hasIdx, Metadata.subset]
    exact find?_isSome_map_keyed _ _ j
  constructor
  · have := skipChain_ok
      (fun i => ((m.tracks.filter fun p => ¬(removedIdxs cs m.audios ++
          removedIdxs cs m.videos).contains p.1).find? fun p => p.1 = i).isSome)
      (chainNext m MTrack.up) rankUp hru (m.tracks.length + 1) q.2.up
      (fun i _ => hbu i)
    rcases this with h | ⟨j, hj, hpj⟩
    · exact Or.inl (by rw [← hpq]; exact h)
    · exact Or.inr ⟨j, by rw [← hpq]; exact hj, by rw [hasIdx_eq]; exact hpj⟩
  · have := skipChain_ok
      (fun i => ((m.tracks.filter fun p => ¬(removedIdxs cs m.audios ++
          removedIdxs cs m.videos).contains p.1).find? fun p => p.1 = i).isSome)
      (chainNext m MTrack.down) rankDown hrd (m.tracks.length + 1) q.2.down
      (fun i _ => hbd i)
    rcases this with h | ⟨j, hj, hpj⟩
    · exact Or.inl (by rw [← hpq]; exact h)
    · exact Or.inr ⟨j, by rw [← hpq]; exact hj, by rw [hasIdx_eq]; exact hpj⟩

/-- Witness for C10 on the mixed-codec ladder: filtering on h264 removes B
(idx 2, vp9); the surviving A (idx 1) has its up reference rewritten to
skip B and point at C (idx 3), which is present in the result. -/
theorem C10_subset_no_dangling_witness :
    ((some 3 : Option ℕ) = none ∨
      ∃ j, (some 3 : Option ℕ) = some j ∧
        (mixedLadder.subset (some ["h264"])).hasIdx j = true) ∧
    ((none : Option ℕ) = none ∨
      ∃ j, (none : Option ℕ) = some j ∧
        (mixedLadder.subset (some ["h264"])).hasIdx j = true) :=
  C10_subset_no_dangling mixedLadder ["h264"] (fun i => (4 - i) % 4) (fun i => i % 4)
    (by
      intro i j h
      by_cases h3 : (3 : ℕ) = i
      · rw [← h3] at h
        simp [chainNext, Metadata.get, mixedLadder, mixedA, mixedB, mixedC,
          List.find?] at h
      · by_cases h2 : (2 : ℕ) = i
        · rw [← h2] at h
          simp [chainNext, Metadata.get, mixedLadder, mixedA, mixedB, mixedC,
            List.find?] at h
          subst h
          rw [← h2]
          norm_num
        · by_cases h1 : (1 : ℕ) = i
          · rw [← h1] at h
            simp [chainNext, Metadata.get, mixedLadder, mixedA, mixedB, mixedC,
              List.find?] at h
            subst h
            rw [← h1]
            norm_num
          · simp [chainNext, Metadata.get, mixedLadder, List.find?, h3, h2, h1] at h)
    (by
      intro i j h
      by_cases h3 : (3 : ℕ) = i
      · rw [← h3] at h
        simp [chainNext, Metadata.get, mixedLadder, mixedA, mixedB, mixedC,
          List.find?] at h
        subst h
        rw [← h3]
        norm_num
      · by_cases h2 : (2 : ℕ) = i
        · rw [← h2] at h
          simp [chainNext, Metadata.get, mixedLadder, mixedA, mixedB, mixedC,
            List.find?] at h
          subst h
          rw [← h2]
          norm_num
        · by_cases h1 : (1 : ℕ) = i
          · rw [← h1] at h
            simp [chainNext, Metadata.get, mixedLadder, mixedA, mixedB, mixedC,
              List.find?] at h
          · simp [chainNext, Metadata.get, mixedLadder, List.find?, h3, h2, h1] at h)
    (by
      intro i
      simp only [mixedLadder, List.length_cons, List.length_nil]
      omega)
    (by
      intro i
      simp only [mixedLadder, List.length_cons, List.length_nil]
      omega)
    ((1 : ℕ), (⟨1, MType.video, "h264", 1000000, some 3, none⟩ : MTrack)) (by decide)

theorem linearComputeBitrateE_ok (core : ABRCore) (v : LinearVars) (now b : ℚ)
    (constraint : Option ℚ) (report : Option MediaReport) :
    linearComputeBitrateE core v now b constraint report =
      .ok (linearComputeBitrate core v now b constraint report) := by
  unfold linearComputeBitrateE linearComputeBitrate
  by_cases hc : constraintHit b constraint = true
  · cases constraint with
    | none => simp [constraintHit] at hc
    | some c => simp [hc, getQE]
  · by_cases hl :
        qTruthy ((report.bind MediaReport.stats).bind MediaStats.loss_perc) = true
    · cases hrs : report.bind MediaReport.stats with
      | none => rw [hrs] at hl; simp [qTruthy] at hl
      | some ms =>
        rw [hrs] at hl
        simp only [Option.some_bind] at hl
        simp [hc, hl, hrs, pure, Except.pure, bind, Except.bind, getStatsE]
    · by_cases h1 : v.stableTime ≤ now
      · by_cases h2 : v.stableTime = 0
        · have h3 : (0 : ℚ) ≤ now := h2 ▸ h1
          simp [hc, hl, h1, h2, h3, pure, Except.pure]
        · simp [hc, hl, h1, h2, pure, Except.pure]
      · simp [hc, hl, h1, pure, Except.pure]

theorem gradeComputeBitrateE_ok (core : ABRCore) (v : GradeVars) (now b : ℚ)
    (constraint : Option ℚ) (report : Option MediaReport) :
    gradeComputeBitrateE core v now b constraint report =
      .ok (gradeComputeBitrate core v now b constraint report) := by
  unfold gradeComputeBitrateE gradeComputeBitrate
  cases hrs : report.bind MediaReport.stats with
  | none => simp [hrs, pure, Except.pure, bind, Except.bind]
  | some ms =>
    cases hlp : ms.loss_perc with
    | none => simp [hrs, hlp, pure, Except.pure, bind, Except.bind]
    | some l => simp [hrs, hlp, pure, Except.pure, bind, Except.bind, getStatsE]

theorem mbrComputeE_ok (m : Metadata) (sel : TracksSel) (stats : MBRStats)
    (now : ℚ) (st : MBRState) :
    mbrComputeE m sel stats now st = .ok (mbrCompute m sel stats now st) := by
  unfold mbrComputeE mbrCompute
  cases h : sel.video.orElse fun _ => sel.audio with
  | none => simp [pure, Except.pure]
  | some track =>
    simp only []
    cases hmt : st.mTrack with
    | none =>
      cases hg : m.get track with
      | none => simp [hmt, hg, pure, Except.pure]
      | some t =>
        cases hts : (if sel.video = some track then stats.video else stats.audio) with
        | none => simp [hmt, hg, hts, pure, Except.pure, bind, Except.bind, getTrackE]
        | some ts =>
          simp [hmt, hg, hts, pure, Except.pure, bind, Except.bind, getTrackE,
            getRTCStatsE]
    | some t0 =>
      by_cases hidx : t0.idx = track
      · cases hts : (if sel.video = some track then stats.video else stats.audio) with
        | none => simp [hmt, hidx, getTrackE, hts, pure, Except.pure, bind, Except.bind]
        | some ts =>
          simp [hmt, hidx, getTrackE, getRTCStatsE, hts, pure, Except.pure, bind,
            Except.bind]
      · cases hg : m.get track with
        | none => simp [hmt, hidx, hg, pure, Except.pure]
        | some t =>
          cases hts : (if sel.video = some track then stats.video else stats.audio) with
          | none => simp [hmt, hidx, hg, hts, pure, Except.pure, bind, Except.bind,
              getTrackE]
          | some ts => simp [hmt, hidx, hg, hts, pure, Except.pure, bind, Except.bind,
              getTrackE, getRTCStatsE]

/-- C9: no public compute operation throws across the controller boundary.
Re-running each compute in an `Except` monad where every property access
that the source performs on a possibly-undefined value is an explicit
throwing dereference, every call returns `.ok` of the pure result: the
guards in the source (the constraint/loss truthiness tests, the
`!this._mTrack ||` short-circuit, the early `return false` on a missing
ladder entry or missing statistics) dominate every dereference, missing
input data yields a "no decision" result, and the bound setters and
`reset` are total by construction. -/
theorem C9_no_exceptions :
    (∀ (s : ABRLinearState) (now : ℚ) (b c : Option ℚ) (r : Option MediaReport),
      s.computeE now b c r = .ok (s.compute now b c r)) ∧
    (∀ (s : ABRGradeState) (now : ℚ) (b c : Option ℚ) (r : Option MediaReport),
      s.computeE now b c r = .ok (s.compute now b c r)) ∧
    (∀ (m : Metadata) (sel : TracksSel) (stats : MBRStats) (now : ℚ) (st : MBRState),
      mbrComputeE m sel stats now st = .ok (mbrCompute m sel stats now st)) := by
  refine ⟨?_, ?_, fun m sel stats now st => mbrComputeE_ok m sel stats now st⟩
  · intro s now b c r
    cases b with
    | none => rfl
    | some b =>
      simp [ABRLinearState.computeE, ABRLinearState.compute, linearComputeBitrateE_ok]
  · intro s now b c r
    cases b with
    | none => rfl
    | some b =>
      simp [ABRGradeState.computeE, ABRGradeState.compute, gradeComputeBitrateE_ok]
